import Mathlib

/-!
Verification model of the 2FAS-exporter core (OTPTools + BackupProcessors).

Python strings are modelled as `List Char` (sequences of Unicode scalar
values); Python `int` as `Int` (arbitrary precision); Python `bytes` as
`List Nat` with every element `< 256`.  Fallible Python code is modelled
with `Except` / `Option`.  External cryptographic primitives (PBKDF2,
AES-GCM) and the JSON parser are abstracted as explicit oracle parameters;
everything else is translated from the repository sources.
-/

set_option maxRecDepth 4096

namespace TwoFas

abbrev Str := List Char

def str (s : String) : Str := s.toList

/-- ASCII whitespace set used by Python `str.strip()` (the model restricts
`str.strip` to its ASCII behaviour). -/
def isPySpace (c : Char) : Bool :=
  c = ' ' || c = '\t' || c = '\n' || c = '\r' || c = '\x0b' || c = '\x0c'

/-- Python `s.strip()`. -/
def pyStrip (s : Str) : Str :=
  ((s.dropWhile isPySpace).reverse.dropWhile isPySpace).reverse

/-- Python `s.lstrip('/')`. -/
def lstripSlash (s : Str) : Str := s.dropWhile (fun c => c = '/')

/-- ASCII-only model of Python `str.upper()`. -/
def pyUpper (s : Str) : Str := s.map Char.toUpper

/-- ASCII-only model of Python `str.lower()`. -/
def pyLower (s : Str) : Str := s.map Char.toLower

/-- Python `a.replace(c, d)` for single characters. -/
def replaceChar (a b : Char) (s : Str) : Str :=
  s.map (fun c => if c = a then b else c)

/-- Python `c in s` membership test. -/
def strHas (c : Char) (s : Str) : Bool := s.contains c

/-- Python `s.startswith(p)`. -/
def strStartsWith (p s : Str) : Bool := s.take p.length = p

/-- Python `s.split(sep)` for a single-character separator: never returns
an empty list (`"".split(c) == ['']`). -/
def splitAll (sep : Char) : Str → List Str
  | [] => [[]]
  | c :: t =>
    if c = sep then [] :: splitAll sep t
    else match splitAll sep t with
      | [] => [[c]]
      | h :: r => (c :: h) :: r

/-- Python `s.split(sep, 1)`: split on the first occurrence only. -/
def split1 (sep : Char) : Str → (Str × Option Str)
  | [] => ([], none)
  | c :: t =>
    if c = sep then ([], some t)
    else
      let (h, r) := split1 sep t
      (c :: h, r)

/-- `sep.join(pieces)` for a single-character separator. -/
def joinSep (sep : Char) : List Str → Str
  | [] => []
  | [p] => p
  | p :: r => p ++ sep :: joinSep sep r

/- ### Decimal numerals: Python `str(int)` and `int(str)` -/

def digitChar (n : Nat) : Char := Char.ofNat (48 + n % 10)

def isDecDigit (c : Char) : Bool := '0' ≤ c && c ≤ '9'

def decVal (c : Char) : Nat := c.toNat - 48

/-- Decimal digits of `n`, least significant first, with enough structural
fuel (any `fuel > n` suffices). -/
def natToRevAux : Nat → Nat → List Char
  | 0, _ => []
  | fuel + 1, n =>
    if n < 10 then [digitChar n]
    else digitChar (n % 10) :: natToRevAux fuel (n / 10)

/-- Python `str(n)` for a natural number. -/
def natRepr (n : Nat) : Str := (natToRevAux (n + 1) n).reverse

/-- Python `str(n)` for an integer. -/
def intRepr (n : Int) : Str :=
  if n < 0 then '-' :: natRepr n.natAbs else natRepr n.natAbs

/-- Digit run possibly containing single underscores between digits
(the grammar accepted by Python `int()` after sign stripping). -/
def digitsUnder : Str → Bool
  | [] => false
  | [c] => isDecDigit c
  | c :: '_' :: rest => isDecDigit c && digitsUnder rest
  | c :: rest => isDecDigit c && digitsUnder rest

def decValue (s : Str) : Nat :=
  (s.filter (fun c => c ≠ '_')).foldl (fun a c => a * 10 + decVal c) 0

/-- Model of Python `int(s)` on a string: strips whitespace, allows an
optional sign and underscores between digits. -/
def pyIntOfStr (s : Str) : Option Int :=
  match pyStrip s with
  | '+' :: r => if digitsUnder r then some (decValue r) else none
  | '-' :: r => if digitsUnder r then some (-(decValue r : Int)) else none
  | r => if digitsUnder r then some (decValue r) else none

end TwoFas

namespace TwoFas

/- ### UTF-8 (used by `urllib.parse.quote` / `unquote` and `bytes.decode`) -/

/-- UTF-8 encoding of a Unicode scalar value. -/
def utf8Enc (n : Nat) : List Nat :=
  if n < 0x80 then [n]
  else if n < 0x800 then [0xC0 + n / 0x40, 0x80 + n % 0x40]
  else if n < 0x10000 then
    [0xE0 + n / 0x1000, 0x80 + (n / 0x40) % 0x40, 0x80 + n % 0x40]
  else
    [0xF0 + n / 0x40000, 0x80 + (n / 0x1000) % 0x40,
     0x80 + (n / 0x40) % 0x40, 0x80 + n % 0x40]

def utf8EncodeChar (c : Char) : List Nat := utf8Enc c.toNat

def isCont (b : Nat) : Bool := 0x80 ≤ b && b < 0xC0

/-- Unicode replacement character. -/
def repChar : Char := Char.ofNat 0xFFFD

/-- `bytes.decode("utf-8", errors="replace")`: one character is read per
step; a malformed sequence contributes one replacement character for its
maximal subpart (the policy of Python codecs) and decoding resumes after
it. -/
def utf8DecodeRep : List Nat → Str
  | [] => []
  | b0 :: rest =>
    if b0 < 0x80 then Char.ofNat b0 :: utf8DecodeRep rest
    else if b0 < 0xC2 then repChar :: utf8DecodeRep rest
    else if b0 < 0xE0 then
      match rest with
      | b1 :: r1 =>
        if isCont b1 then
          Char.ofNat ((b0 - 0xC0) * 0x40 + (b1 - 0x80)) :: utf8DecodeRep r1
        else repChar :: utf8DecodeRep (b1 :: r1)
      | [] => [repChar]
    else if b0 < 0xF0 then
      match rest with
      | b1 :: r1 =>
        if isCont b1 && (decide (b0 ≠ 0xE0) || decide (0xA0 ≤ b1))
            && (decide (b0 ≠ 0xED) || decide (b1 < 0xA0)) then
          match r1 with
          | b2 :: r2 =>
            if isCont b2 then
              Char.ofNat ((b0 - 0xE0) * 0x1000 + (b1 - 0x80) * 0x40 + (b2 - 0x80))
                :: utf8DecodeRep r2
            else repChar :: utf8DecodeRep (b2 :: r2)
          | [] => [repChar]
        else repChar :: utf8DecodeRep (b1 :: r1)
      | [] => [repChar]
    else if b0 < 0xF5 then
      match rest with
      | b1 :: r1 =>
        if isCont b1 && (decide (b0 ≠ 0xF0) || decide (0x90 ≤ b1))
            && (decide (b0 ≠ 0xF4) || decide (b1 < 0x90)) then
          match r1 with
          | b2 :: r2 =>
            if isCont b2 then
              match r2 with
              | b3 :: r3 =>
                if isCont b3 then
                  Char.ofNat ((b0 - 0xF0) * 0x40000 + (b1 - 0x80) * 0x1000
                    + (b2 - 0x80) * 0x40 + (b3 - 0x80)) :: utf8DecodeRep r3
                else repChar :: utf8DecodeRep (b3 :: r3)
              | [] => [repChar]
            else repChar :: utf8DecodeRep (b2 :: r2)
          | [] => [repChar]
        else repChar :: utf8DecodeRep (b1 :: r1)
      | [] => [repChar]
    else repChar :: utf8DecodeRep rest

/-- `bytes.decode("utf-8")` with the default strict error handling. -/
def utf8DecodeStrict : List Nat → Option Str
  | [] => some []
  | b0 :: rest =>
    if b0 < 0x80 then (utf8DecodeStrict rest).map (Char.ofNat b0 :: ·)
    else if b0 < 0xC2 then none
    else if b0 < 0xE0 then
      match rest with
      | b1 :: r1 =>
        if isCont b1 then
          (utf8DecodeStrict r1).map (Char.ofNat ((b0 - 0xC0) * 0x40 + (b1 - 0x80)) :: ·)
        else none
      | [] => none
    else if b0 < 0xF0 then
      match rest with
      | b1 :: r1 =>
        if isCont b1 && (decide (b0 ≠ 0xE0) || decide (0xA0 ≤ b1))
            && (decide (b0 ≠ 0xED) || decide (b1 < 0xA0)) then
          match r1 with
          | b2 :: r2 =>
            if isCont b2 then
              (utf8DecodeStrict r2).map
                (Char.ofNat ((b0 - 0xE0) * 0x1000 + (b1 - 0x80) * 0x40 + (b2 - 0x80)) :: ·)
            else none
          | [] => none
        else none
      | [] => none
    else if b0 < 0xF5 then
      match rest with
      | b1 :: r1 =>
        if isCont b1 && (decide (b0 ≠ 0xF0) || decide (0x90 ≤ b1))
            && (decide (b0 ≠ 0xF4) || decide (b1 < 0x90)) then
          match r1 with
          | b2 :: r2 =>
            if isCont b2 then
              match r2 with
              | b3 :: r3 =>
                if isCont b3 then
                  (utf8DecodeStrict r3).map
                    (Char.ofNat ((b0 - 0xF0) * 0x40000 + (b1 - 0x80) * 0x1000
                      + (b2 - 0x80) * 0x40 + (b3 - 0x80)) :: ·)
                else none
              | [] => none
            else none
          | [] => none
        else none
      | [] => none
    else none

end TwoFas

namespace TwoFas

theorem utf8Enc_shape (c : Char) : ∃ b t2, utf8EncodeChar c = b :: t2 := by
  unfold utf8EncodeChar utf8Enc
  repeat' split
  all_goals exact ⟨_, _, rfl⟩

theorem utf8Enc_lt (c : Char) : ∀ b ∈ utf8EncodeChar c, b < 256 := by
  have hv : c.toNat < 0xD800 ∨ (0xDFFF < c.toNat ∧ c.toNat < 0x110000) := c.valid
  unfold utf8EncodeChar utf8Enc
  repeat' split
  all_goals intro b hb
  all_goals simp at hb
  all_goals omega

theorem utf8DecodeRep_enc (c : Char) (bs : List Nat) :
    utf8DecodeRep (utf8EncodeChar c ++ bs) = c :: utf8DecodeRep bs := by
  have hv : c.toNat < 0xD800 ∨ (0xDFFF < c.toNat ∧ c.toNat < 0x110000) := c.valid
  have hofn : Char.ofNat c.toNat = c := Char.ofNat_toNat c
  by_cases h1 : c.toNat < 0x80
  · simp only [utf8EncodeChar, utf8Enc, if_pos h1, List.cons_append, List.nil_append]
    rw [utf8DecodeRep.eq_def]
    simp [h1, hofn]
  · by_cases h2 : c.toNat < 0x800
    · simp only [utf8EncodeChar, utf8Enc, if_neg h1, if_pos h2, List.cons_append,
        List.nil_append]
      rw [utf8DecodeRep.eq_def]
      have A : ¬ (0xC0 + c.toNat / 0x40 < 0x80) := by omega
      have B : ¬ (0xC0 + c.toNat / 0x40 < 0xC2) := by omega
      have C : 0xC0 + c.toNat / 0x40 < 0xE0 := by omega
      have D : isCont (0x80 + c.toNat % 0x40) = true := by simp [isCont]; omega
      simp [A, B, C, D]
      have E : c.toNat / 64 * 64 + c.toNat % 64 = c.toNat := by omega
      rw [E, hofn]
    · by_cases h3 : c.toNat < 0x10000
      · simp only [utf8EncodeChar, utf8Enc, if_neg h1, if_neg h2, if_pos h3,
          List.cons_append, List.nil_append]
        rw [utf8DecodeRep.eq_def]
        have A : ¬ (0xE0 + c.toNat / 0x1000 < 0x80) := by omega
        have B : ¬ (0xE0 + c.toNat / 0x1000 < 0xC2) := by omega
        have C : ¬ (0xE0 + c.toNat / 0x1000 < 0xE0) := by omega
        have C2 : 0xE0 + c.toNat / 0x1000 < 0xF0 := by omega
        have D2 : isCont (0x80 + c.toNat % 0x40) = true := by simp [isCont]; omega
        simp [A, B, C, C2, D2]
        rw [if_pos (by refine ⟨⟨?_, ?_⟩, ?_⟩ <;> first | (simp [isCont]; omega) | omega)]
        have E : c.toNat / 4096 * 4096 + c.toNat / 64 % 64 * 64 + c.toNat % 64
            = c.toNat := by omega
        rw [E, hofn]
      · simp only [utf8EncodeChar, utf8Enc, if_neg h1, if_neg h2, if_neg h3,
          List.cons_append, List.nil_append]
        rw [utf8DecodeRep.eq_def]
        have hub : c.toNat < 0x110000 := by omega
        have A : ¬ (0xF0 + c.toNat / 0x40000 < 0x80) := by omega
        have B : ¬ (0xF0 + c.toNat / 0x40000 < 0xC2) := by omega
        have C : ¬ (0xF0 + c.toNat / 0x40000 < 0xE0) := by omega
        have C2 : ¬ (0xF0 + c.toNat / 0x40000 < 0xF0) := by omega
        have C3 : 0xF0 + c.toNat / 0x40000 < 0xF5 := by omega
        have D2 : isCont (0x80 + c.toNat / 0x40 % 0x40) = true := by simp [isCont]; omega
        have D3 : isCont (0x80 + c.toNat % 0x40) = true := by simp [isCont]; omega
        simp [A, B, C, C2, C3, D2, D3]
        rw [if_pos (by refine ⟨⟨?_, ?_⟩, ?_⟩ <;> first | (simp [isCont]; omega) | omega)]
        have E : c.toNat / 262144 * 262144 + c.toNat / 4096 % 64 * 4096
            + c.toNat / 64 % 64 * 64 + c.toNat % 64 = c.toNat := by omega
        rw [E, hofn]

end TwoFas

namespace TwoFas

/- ### Percent encoding: `urllib.parse.quote` / `unquote` / `unquote_plus` -/

def hexUpperChar (n : Nat) : Char :=
  if n < 10 then digitChar n else Char.ofNat (55 + n)

/-- `"%XX"` with uppercase hex digits, as produced by `urllib.parse.quote`. -/
def pctByte (b : Nat) : Str := ['%', hexUpperChar (b / 16), hexUpperChar (b % 16)]

/-- `urllib.parse`'s `_ALWAYS_SAFE` character set. -/
def isAlwaysSafe (c : Char) : Bool :=
  ('A' ≤ c && c ≤ 'Z') || ('a' ≤ c && c ≤ 'z') || ('0' ≤ c && c ≤ '9')
    || c = '_' || c = '.' || c = '-' || c = '~'

/-- One character of `urllib.parse.quote(s, safe='/')` output. -/
def quoteChar (c : Char) : Str :=
  if isAlwaysSafe c || c = '/' then [c] else (utf8EncodeChar c).flatMap pctByte

/-- `urllib.parse.quote(s, safe='/')` (the default `safe`). -/
def pyQuote (s : Str) : Str := s.flatMap quoteChar

def isHexChar (c : Char) : Bool :=
  isDecDigit c || ('A' ≤ c && c ≤ 'F') || ('a' ≤ c && c ≤ 'f')

def hexVal (c : Char) : Nat :=
  if isDecDigit c then decVal c
  else if 'a' ≤ c then c.toNat - 87
  else c.toNat - 55

/-- Collect a maximal leading run of `%XX` escapes into bytes, returning the
bytes and the remaining characters. -/
def grabPct : Str → List Nat × Str
  | '%' :: h1 :: h2 :: t =>
    if isHexChar h1 && isHexChar h2 then
      ((hexVal h1 * 16 + hexVal h2) :: (grabPct t).1, (grabPct t).2)
    else ([], '%' :: h1 :: h2 :: t)
  | s => ([], s)

theorem grabPct_len (s : Str) : (grabPct s).2.length ≤ s.length := by
  induction s using grabPct.induct with
  | case1 h1 h2 t hx ih =>
    rw [grabPct.eq_def]
    simp only [hx, if_pos, List.length_cons]
    simp at ih ⊢
    omega
  | case2 h1 h2 t hx =>
    rw [grabPct.eq_def]
    simp [hx]
  | case3 s h =>
    rw [grabPct.eq_def]
    split
    next => simp_all
    next => simp

theorem grabPct_cons_hex {h1 h2 : Char} (t : Str)
    (hx : (isHexChar h1 && isHexChar h2) = true) :
    grabPct ('%' :: h1 :: h2 :: t)
      = ((hexVal h1 * 16 + hexVal h2) :: (grabPct t).1, (grabPct t).2) := by
  rw [grabPct.eq_def]
  simp [hx]

/-- Worker for `urllib.parse.unquote(s)` with structural fuel (any
`fuel` of at least `s.length` gives the untruncated result): percent-escape
runs are decoded as UTF-8 bytes with replacement on errors; other
characters pass through. -/
def pyUnquoteAux : Nat → Str → Str
  | 0, s => s
  | fuel + 1, s =>
    match s with
    | [] => []
    | c :: t =>
      if c = '%' then
        match t with
        | h1 :: h2 :: t2 =>
          if (isHexChar h1 && isHexChar h2) = true then
            utf8DecodeRep (grabPct (c :: h1 :: h2 :: t2)).1
              ++ pyUnquoteAux fuel (grabPct (c :: h1 :: h2 :: t2)).2
          else '%' :: pyUnquoteAux fuel (h1 :: h2 :: t2)
        | [h1] => '%' :: pyUnquoteAux fuel [h1]
        | [] => ['%']
      else c :: pyUnquoteAux fuel t

/-- `urllib.parse.unquote(s)`. -/
def pyUnquote (s : Str) : Str := pyUnquoteAux s.length s

/-- `urllib.parse.unquote_plus(s)`: `'+'` becomes a space, then unquote. -/
def pyUnquotePlus (s : Str) : Str := pyUnquote (replaceChar '+' ' ' s)

theorem pyUnquoteAux_ne (f : Nat) {c : Char} (hc : c ≠ '%') (t : Str) :
    pyUnquoteAux (f + 1) (c :: t) = c :: pyUnquoteAux f t := by
  match t with
  | [] =>
    show (if c = '%' then (['%'] : Str) else c :: pyUnquoteAux f []) = c :: pyUnquoteAux f []
    rw [if_neg hc]
  | [h1] =>
    show (if c = '%' then '%' :: pyUnquoteAux f [h1] else c :: pyUnquoteAux f [h1])
        = c :: pyUnquoteAux f [h1]
    rw [if_neg hc]
  | h1 :: h2 :: t2 =>
    show (if c = '%' then
            (if (isHexChar h1 && isHexChar h2) = true then
              utf8DecodeRep (grabPct (c :: h1 :: h2 :: t2)).1
                ++ pyUnquoteAux f (grabPct (c :: h1 :: h2 :: t2)).2
             else '%' :: pyUnquoteAux f (h1 :: h2 :: t2))
          else c :: pyUnquoteAux f (h1 :: h2 :: t2))
        = c :: pyUnquoteAux f (h1 :: h2 :: t2)
    rw [if_neg hc]

theorem pyUnquoteAux_pct3 (f : Nat) (h1 h2 : Char) (t2 : Str) :
    pyUnquoteAux (f + 1) ('%' :: h1 :: h2 :: t2)
      = if (isHexChar h1 && isHexChar h2) = true then
          utf8DecodeRep (grabPct ('%' :: h1 :: h2 :: t2)).1
            ++ pyUnquoteAux f (grabPct ('%' :: h1 :: h2 :: t2)).2
        else '%' :: pyUnquoteAux f (h1 :: h2 :: t2) := by
  rfl

theorem pyUnquoteAux_pct1 (f : Nat) (h1 : Char) :
    pyUnquoteAux (f + 1) ['%', h1] = '%' :: pyUnquoteAux f [h1] := by
  rfl

theorem pyUnquoteAux_agree : ∀ (f1 f2 : Nat) (s : Str),
    s.length ≤ f1 → s.length ≤ f2 → pyUnquoteAux f1 s = pyUnquoteAux f2 s := by
  intro f1
  induction f1 with
  | zero =>
    intro f2 s h1 _
    have hs : s = [] := by cases s <;> simp_all
    subst hs
    cases f2 <;> rfl
  | succ f ih =>
    intro f2 s h1 h2
    cases f2 with
    | zero =>
      have hs : s = [] := by cases s <;> simp_all
      subst hs
      rfl
    | succ g =>
      match s with
      | [] => rfl
      | c :: t =>
        by_cases hc : c = '%'
        · subst hc
          match t with
          | h1c :: h2c :: t2 =>
            rw [pyUnquoteAux_pct3, pyUnquoteAux_pct3]
            by_cases hx : (isHexChar h1c && isHexChar h2c) = true
            · rw [if_pos hx, if_pos hx]
              have hrem := @grabPct_cons_hex h1c h2c t2 hx
              rw [hrem]
              have hl := grabPct_len t2
              simp only [List.length_cons] at h1 h2
              rw [ih g (grabPct t2).2 (by omega) (by omega)]
            · rw [if_neg hx, if_neg hx]
              simp only [List.length_cons] at h1 h2
              rw [ih g (h1c :: h2c :: t2) (by simp; omega) (by simp; omega)]
          | [h1c] =>
            rw [pyUnquoteAux_pct1, pyUnquoteAux_pct1]
            simp only [List.length_cons] at h1 h2
            rw [ih g [h1c] (by simp; omega) (by simp; omega)]
          | [] => rfl
        · rw [pyUnquoteAux_ne f hc, pyUnquoteAux_ne g hc]
          simp only [List.length_cons] at h1 h2
          rw [ih g t (by omega) (by omega)]

theorem pyUnquote_fuel (f : Nat) (s : Str) (h : s.length ≤ f) :
    pyUnquoteAux f s = pyUnquote s :=
  pyUnquoteAux_agree f s.length s h le_rfl

end TwoFas

namespace TwoFas

theorem hexUpper_hex : ∀ n < 16, isHexChar (hexUpperChar n) = true ∧ hexVal (hexUpperChar n) = n := by decide

theorem grabPct_pctByte {b : Nat} (hb : b < 256) (rest : Str) :
    grabPct (pctByte b ++ rest) = (b :: (grabPct rest).1, (grabPct rest).2) := by
  have h1 := hexUpper_hex (b / 16) (by omega)
  have h2 := hexUpper_hex (b % 16) (by omega)
  have hx : (isHexChar (hexUpperChar (b / 16)) && isHexChar (hexUpperChar (b % 16))) = true := by
    simp [h1.1, h2.1]
  rw [show pctByte b ++ rest = '%' :: hexUpperChar (b / 16) :: hexUpperChar (b % 16) :: rest from rfl]
  rw [grabPct_cons_hex _ hx]
  have hval : hexVal (hexUpperChar (b / 16)) * 16 + hexVal (hexUpperChar (b % 16)) = b := by
    rw [h1.2, h2.2]; omega
  rw [hval]

theorem grabPct_encBytes {bytes : List Nat} (h : ∀ b ∈ bytes, b < 256) (rest : Str) :
    grabPct (bytes.flatMap pctByte ++ rest)
      = (bytes ++ (grabPct rest).1, (grabPct rest).2) := by
  induction bytes with
  | nil => simp
  | cons b bs ih =>
    have hb : b < 256 := h b (by simp)
    have hbs : ∀ x ∈ bs, x < 256 := fun x hx => h x (by simp [hx])
    simp only [List.flatMap_cons, List.append_assoc]
    rw [grabPct_pctByte hb, ih hbs]
    simp

theorem safe_ne_pct {c : Char} (h : (isAlwaysSafe c || c = '/') = true) : c ≠ '%' := by
  intro he
  subst he
  simp [isAlwaysSafe] at h

theorem grabPct_not_pct {c : Char} (hc : c ≠ '%') (t : Str) :
    grabPct (c :: t) = ([], c :: t) := by
  rw [grabPct.eq_def]
  split
  next => simp_all
  next => rfl

theorem unquote_eq_from (s : Str) :
    pyUnquote s = utf8DecodeRep (grabPct s).1 ++ pyUnquote (grabPct s).2 := by
  match s with
  | [] => rfl
  | c :: t =>
    by_cases hc : c = '%'
    · subst hc
      match t with
      | h1 :: h2 :: t2 =>
        by_cases hx : (isHexChar h1 && isHexChar h2) = true
        · show pyUnquoteAux (t2.length + 2 + 1) ('%' :: h1 :: h2 :: t2) = _
          rw [pyUnquoteAux_pct3, if_pos hx]
          have hrem := @grabPct_cons_hex h1 h2 t2 hx
          rw [hrem]
          have hl := grabPct_len t2
          rw [pyUnquote_fuel (t2.length + 2) (grabPct t2).2 (by omega)]
        · have hg : grabPct ('%' :: h1 :: h2 :: t2) = ([], '%' :: h1 :: h2 :: t2) := by
            rw [grabPct.eq_def]
            simp [hx]
          rw [hg]
          rfl
      | [h1] => rfl
      | [] => rfl
    · rw [grabPct_not_pct hc]
      rfl

end TwoFas

namespace TwoFas

theorem quote_append (a b : Str) : pyQuote (a ++ b) = pyQuote a ++ pyQuote b := by
  simp [pyQuote]

theorem pyUnquote_cons_ne {c : Char} (hc : c ≠ '%') (t : Str) :
    pyUnquote (c :: t) = c :: pyUnquote t := by
  show pyUnquoteAux (t.length + 1) (c :: t) = _
  rw [pyUnquoteAux_ne t.length hc]
  rfl

theorem unquote_quote_aux : ∀ s : Str,
    utf8DecodeRep (grabPct (pyQuote s)).1 ++ pyUnquote (grabPct (pyQuote s)).2 = s := by
  intro s
  induction s with
  | nil =>
    rw [show pyQuote [] = [] from rfl]
    rfl
  | cons c cs ih =>
    by_cases hsafe : (isAlwaysSafe c || c = '/') = true
    · have hq : pyQuote (c :: cs) = c :: pyQuote cs := by
        simp [pyQuote, quoteChar, hsafe]
      rw [hq, grabPct_not_pct (safe_ne_pct hsafe)]
      rw [utf8DecodeRep]
      simp only [List.nil_append]
      rw [pyUnquote_cons_ne (safe_ne_pct hsafe), unquote_eq_from (pyQuote cs), ih]
    · have hq : pyQuote (c :: cs) = (utf8EncodeChar c).flatMap pctByte ++ pyQuote cs := by
        simp [pyQuote, quoteChar, hsafe]
      rw [hq, grabPct_encBytes (utf8Enc_lt c), utf8DecodeRep_enc]
      simp only [List.cons_append]
      rw [ih]

theorem pyUnquote_pyQuote (s : Str) : pyUnquote (pyQuote s) = s := by
  rw [unquote_eq_from]
  exact unquote_quote_aux s

end TwoFas

namespace TwoFas

/- ### `urllib.parse.urlparse` (restricted to the fields the code reads) -/

structure UrlParts where
  netloc : Str
  path : Str
  query : Str
deriving Repr, DecidableEq

def notNetlocEnd (c : Char) : Bool := !(c = '/' || c = '?' || c = '#')

/-- `urlsplit` applied to a URL of the form `otpauth://REST`: extracts the
netloc (up to the first `/`, `?` or `#`), then splits off the fragment at
the first `#`, then the query at the first `?`. -/
def urlparseRest (r : Str) : UrlParts :=
  let netloc := r.takeWhile notNetlocEnd
  let r1 := r.dropWhile notNetlocEnd
  let beforeFrag := (split1 '#' r1).1
  let (path, q) := split1 '?' beforeFrag
  { netloc := netloc, path := path, query := q.getD [] }

/- ### `urllib.parse.parse_qs` (default arguments, `dict` + `[0]` access) -/

/-- One `name=value` piece of a query string (`keep_blank_values=False`,
`strict_parsing=False`): pieces without `=` or with an empty value are
dropped. -/
def qslPiece (piece : Str) : Option (Str × Str) :=
  if piece = [] then none
  else
    match split1 '=' piece with
    | (_, none) => none
    | (k, some v) =>
      if v = [] then none else some (pyUnquotePlus k, pyUnquotePlus v)

/-- `parse_qs` as an association list in insertion order. -/
def parseQs (qs : Str) : List (Str × Str) :=
  (splitAll '&' qs).filterMap qslPiece

/-- `params.get(key, [default])[0]`: the first value bound to `key`. -/
def qsGet (ps : List (Str × Str)) (k : Str) : Option Str :=
  (ps.find? (fun p => p.1 == k)).map (·.2)

end TwoFas

namespace TwoFas

/- ### OTPConfig (`OTPTools/config.py`) -/

namespace OTPConfig

def DEFAULT_DIGITS : Int := 6
def DEFAULT_ALGORITHM : Str := str "SHA1"
def DEFAULT_PERIOD : Int := 30
def DEFAULT_COUNTER : Int := 0
def VALID_DIGITS : List Int := [6, 7, 8]
def VALID_ALGORITHMS : List Str := [str "SHA1", str "SHA256", str "SHA512"]
def MIN_PERIOD : Int := 15
def MAX_PERIOD : Int := 300

end OTPConfig

/- ### OTPEntry base helpers (`OTPTools/base.py`) -/

/-- `OTPEntry._sanitize_string`: falsy values pass through; otherwise strip
then replace `:` with `-`. -/
def sanitizeString (v : Str) : Str :=
  if v = [] then v else replaceChar ':' '-' (pyStrip v)

/-- `OTPEntry._normalize_secret`: falsy values pass through; otherwise
uppercase and remove spaces and hyphens. -/
def normalizeSecret (s : Str) : Str :=
  if s = [] then s else (pyUpper s).filter (fun c => !(c = ' ' || c = '-'))

def isB32Char (c : Char) : Bool := ('A' ≤ c && c ≤ 'Z') || ('2' ≤ c && c ≤ '7')

/-- The regex `^[A-Z2-7]+=*$` from `_is_valid_base32`. -/
def b32RegexOk (s : Str) : Bool :=
  let d := s.takeWhile isB32Char
  let r := s.drop d.length
  decide (d ≠ []) && r.all (fun c => c = '=')

/-- Success predicate of `base64.b32decode` on an input matching the regex
above and padded to a multiple of 8: the length must be a multiple of 8 and
the number of trailing `=` characters must be a valid base32 pad length. -/
def b32DecodeOk (s : Str) : Bool :=
  let d := (s.takeWhile (fun c => c ≠ '=')).length
  let padchars := s.length - d
  decide (s.length % 8 = 0)
    && (padchars = 0 || padchars = 1 || padchars = 3 || padchars = 4 || padchars = 6)

/-- `OTPEntry._is_valid_base32`: the regex check followed by a
`b32decode` attempt after re-padding to a multiple of 8. -/
def isValidBase32 (s : Str) : Bool :=
  b32RegexOk s
    && b32DecodeOk (s ++ List.replicate ((8 - s.length % 8) % 8) '=')

/-- Exceptions of the OTPTools package together with the Python builtins
that its code can leak. -/
inductive PyErr
  | invalidSecret (secret : Str)
  | invalidParameter (name : Str)
  | parseError
  | otpError
  | valueError
  | typeError
  | attributeError
deriving Repr, DecidableEq

/-- A dynamically-typed Python value as passed to `OTPEntry.__init__`
string parameters: either an actual string, or a non-string value
abstracted to its truthiness. -/
inductive PyV
  | str (s : Str)
  | other (truthy : Bool)
deriving Repr, DecidableEq

def pvTruthy : PyV → Bool
  | .str s => decide (s ≠ [])
  | .other t => t

/-- A value as stored by `_sanitize_string` / `_normalize_secret`: either a
string, or a falsy non-string kept unchanged by the `if not value` guard. -/
inductive SVal
  | str (s : Str)
  | falsy
deriving Repr, DecidableEq

def svTruthy : SVal → Bool
  | .str s => decide (s ≠ [])
  | .falsy => false

/-- `_sanitize_string` on a dynamic value: strings are sanitized, falsy
non-strings are returned unchanged, truthy non-strings raise
`AttributeError` from `.strip()`. -/
def sanitizePV : PyV → Except PyErr SVal
  | .str s => .ok (.str (sanitizeString s))
  | .other t => if t then .error .attributeError else .ok .falsy

/-- `_normalize_secret` on a dynamic value (same shape as `sanitizePV`). -/
def normalizeSecretPV : PyV → Except PyErr SVal
  | .str s => .ok (.str (normalizeSecret s))
  | .other t => if t then .error .attributeError else .ok .falsy

structure TOTPEntryM where
  issuer : Str
  secret : Str
  account : Option Str
  digits : Int
  period : Int
  algorithm : Str
  label : Str
deriving Repr, DecidableEq

structure HOTPEntryM where
  issuer : Str
  secret : Str
  account : Option Str
  digits : Int
  counter : Int
  algorithm : Str
  label : Str
deriving Repr, DecidableEq

inductive OTPEntryM
  | totp (e : TOTPEntryM)
  | hotp (e : HOTPEntryM)
deriving Repr, DecidableEq

/-- Shared part of `OTPEntry.__init__`: assignments (sanitize issuer,
normalize secret, sanitize account when truthy, uppercase algorithm),
`_validate_common_params` in source order (secret empty, secret base32,
issuer, digits, algorithm), then `_generate_label`.  Returns the stored
fields and the label. -/
def otpBaseInit (issuer secret : PyV) (account : Option PyV) (digits : Int)
    (algorithm : Str) : Except PyErr (Str × Str × Option Str × Int × Str × Str) :=
  match sanitizePV issuer with
  | .error e => .error e
  | .ok issuerV =>
    match normalizeSecretPV secret with
    | .error e => .error e
    | .ok secretV =>
      match (match account with
             | none => Except.ok (none : Option Str)
             | some a =>
               if pvTruthy a then
                 match a with
                 | .str s => Except.ok (some (sanitizeString s))
                 | .other _ => Except.error PyErr.attributeError
               else Except.ok none) with
      | .error e => .error e
      | .ok accountV =>
        let algorithmV := pyUpper algorithm
        -- _validate_common_params, in source order
        match secretV with
        | .falsy => .error (.invalidSecret [])
        | .str s =>
          if s = [] then .error (.invalidSecret [])
          else if !isValidBase32 s then .error (.invalidSecret s)
          else
            match issuerV with
            | .falsy => .error (.invalidParameter (str "issuer"))
            | .str si =>
              if si = [] then .error (.invalidParameter (str "issuer"))
              else if !(OTPConfig.VALID_DIGITS.contains digits) then
                .error (.invalidParameter (str "digits"))
              else if !(OTPConfig.VALID_ALGORITHMS.contains algorithmV) then
                .error (.invalidParameter (str "algorithm"))
              else
                -- _generate_label
                let label :=
                  match accountV with
                  | some a => if a ≠ [] then si ++ ':' :: a else si
                  | none => si
                .ok (si, s, accountV, digits, algorithmV, label)

/-- `TOTPEntry.__init__`: period assignment, base init, then
`_validate_totp_params` (min bound before max bound). -/
def mkTOTPv (issuer secret : PyV) (account : Option PyV) (digits period : Int)
    (algorithm : Str) : Except PyErr TOTPEntryM :=
  match otpBaseInit issuer secret account digits algorithm with
  | .error e => .error e
  | .ok (i, s, a, d, alg, lab) =>
    if period < OTPConfig.MIN_PERIOD then .error (.invalidParameter (str "period"))
    else if period > OTPConfig.MAX_PERIOD then .error (.invalidParameter (str "period"))
    else .ok { issuer := i, secret := s, account := a, digits := d, period := period,
               algorithm := alg, label := lab }

/-- `HOTPEntry.__init__`: counter assignment, base init, then
`_validate_hotp_params` (counter nonnegative). -/
def mkHOTPv (issuer secret : PyV) (account : Option PyV) (digits counter : Int)
    (algorithm : Str) : Except PyErr HOTPEntryM :=
  match otpBaseInit issuer secret account digits algorithm with
  | .error e => .error e
  | .ok (i, s, a, d, alg, lab) =>
    if counter < 0 then .error (.invalidParameter (str "counter"))
    else .ok { issuer := i, secret := s, account := a, digits := d, counter := counter,
               algorithm := alg, label := lab }

/-- `TOTPEntry(...)` with string-typed arguments. -/
def mkTOTP (issuer secret : Str) (account : Option Str) (digits period : Int)
    (algorithm : Str) : Except PyErr TOTPEntryM :=
  mkTOTPv (.str issuer) (.str secret) (account.map .str) digits period algorithm

/-- `HOTPEntry(...)` with string-typed arguments. -/
def mkHOTP (issuer secret : Str) (account : Option Str) (digits counter : Int)
    (algorithm : Str) : Except PyErr HOTPEntryM :=
  mkHOTPv (.str issuer) (.str secret) (account.map .str) digits counter algorithm

/- ### Serialization (`OTPEntry.otpauth`, `_get_specific_params`) -/

/-- `TOTPEntry._get_specific_params`: `period` only when non-default. -/
def totpSpecificParams (e : TOTPEntryM) : List (Str × Str) :=
  if e.period ≠ OTPConfig.DEFAULT_PERIOD then [(str "period", intRepr e.period)] else []

/-- `HOTPEntry._get_specific_params`: always includes `counter`. -/
def hotpSpecificParams (e : HOTPEntryM) : List (Str × Str) :=
  [(str "counter", intRepr e.counter)]

/-- The parameter association list built by `OTPEntry.otpauth` (base params
in insertion order, then the type-specific params; no value is `None` so
the `None` filter in the source is the identity here). -/
def otpauthParams (e : OTPEntryM) : List (Str × Str) :=
  match e with
  | .totp t =>
    [(str "secret", t.secret), (str "issuer", t.issuer),
     (str "digits", intRepr t.digits), (str "algorithm", t.algorithm)]
      ++ totpSpecificParams t
  | .hotp h =>
    [(str "secret", h.secret), (str "issuer", h.issuer),
     (str "digits", intRepr h.digits), (str "algorithm", h.algorithm)]
      ++ hotpSpecificParams h

def tokenTypeStr : OTPEntryM → Str
  | .totp _ => str "totp"
  | .hotp _ => str "hotp"

def labelOf : OTPEntryM → Str
  | .totp t => t.label
  | .hotp h => h.label

/-- `OTPEntry.otpauth`: `otpauth://{type}/{quote(label)}?{k=quote(v)&...}`. -/
def otpauth (e : OTPEntryM) : Str :=
  str "otpauth://" ++ tokenTypeStr e ++ '/' :: pyQuote (labelOf e)
    ++ '?' :: joinSep '&' ((otpauthParams e).map (fun kv => kv.1 ++ '=' :: pyQuote kv.2))

/-- `OTPEntry.__eq__`, which compares `to_dict()` results: structural
equality on the canonical fields including the `type` tag, ignoring the
stored label. -/
def entryEq : OTPEntryM → OTPEntryM → Bool
  | .totp a, .totp b =>
    a.issuer == b.issuer && a.secret == b.secret && a.account == b.account
      && a.digits == b.digits && a.period == b.period && a.algorithm == b.algorithm
  | .hotp a, .hotp b =>
    a.issuer == b.issuer && a.secret == b.secret && a.account == b.account
      && a.digits == b.digits && a.counter == b.counter && a.algorithm == b.algorithm
  | _, _ => false

/-- `HOTPEntry.increment_counter`: rejects `steps < 1`, otherwise adds
`steps` to the counter and returns the new value. -/
def incrementCounter (e : HOTPEntryM) (steps : Int) : Except PyErr (Int × HOTPEntryM) :=
  if steps < 1 then .error (.invalidParameter (str "steps"))
  else .ok (e.counter + steps, { e with counter := e.counter + steps })

end TwoFas

namespace TwoFas

/- ### `OTPFactory.parse_otpauth_url` (`OTPTools/factory.py`) -/

def optTruthy : Option Str → Bool
  | none => false
  | some s => decide (s ≠ [])

/-- The body of the `try` block in `parse_otpauth_url`. -/
def parseOtpauthBody (url : Str) : Except PyErr OTPEntryM :=
  let parsed := urlparseRest (url.drop (str "otpauth://").length)
  let otpType := pyLower parsed.netloc
  if !(otpType = str "totp" || otpType = str "hotp") then .error .parseError
  else
    let label := pyUnquote (lstripSlash parsed.path)
    if label = [] then .error .parseError
    else
      let params := parseQs parsed.query
      match (match qsGet params (str "secret") with
             | none => Except.error PyErr.parseError
             | some s => if s = [] then Except.error PyErr.parseError else Except.ok s) with
      | .error e => .error e
      | .ok secret =>
        let issuer0 := qsGet params (str "issuer")
        -- label split: `issuer:account` with the query `issuer` taking precedence
        let ia : Option Str × Option Str :=
          if strHas ':' label then
            let sp := split1 ':' label
            (if optTruthy issuer0 then issuer0 else some sp.1, sp.2)
          else
            (if optTruthy issuer0 then issuer0 else some label, none)
        if !(optTruthy ia.1) then .error .parseError
        else
          let issuer := ia.1.getD []
          let account := ia.2
          match (match qsGet params (str "digits") with
                 | none => Except.ok OTPConfig.DEFAULT_DIGITS
                 | some s =>
                   match pyIntOfStr s with
                   | some n => Except.ok n
                   | none => Except.error PyErr.valueError) with
          | .error e => .error e
          | .ok digits =>
            let algorithm :=
              match qsGet params (str "algorithm") with
              | none => OTPConfig.DEFAULT_ALGORITHM
              | some s => pyUpper s
            if otpType = str "hotp" then
              match (match qsGet params (str "counter") with
                     | none => Except.ok OTPConfig.DEFAULT_COUNTER
                     | some s =>
                       match pyIntOfStr s with
                       | some n => Except.ok n
                       | none => Except.error PyErr.valueError) with
              | .error e => .error e
              | .ok counter =>
                match mkHOTP issuer secret account digits counter algorithm with
                | .error e => .error e
                | .ok e => .ok (.hotp e)
            else
              match (match qsGet params (str "period") with
                     | none => Except.ok OTPConfig.DEFAULT_PERIOD
                     | some s =>
                       match pyIntOfStr s with
                       | some n => Except.ok n
                       | none => Except.error PyErr.valueError) with
              | .error e => .error e
              | .ok period =>
                match mkTOTP issuer secret account digits period algorithm with
                | .error e => .error e
                | .ok e => .ok (.totp e)

/-- Exception mapping of the `try` in `parse_otpauth_url`:
`ValueError`/`TypeError` become `ParseError`; any `OTPError` subclass
(including a `ParseError` raised inside the `try`) is re-raised as a plain
`OTPError`. -/
def factoryWrapErr : PyErr → PyErr
  | .valueError => .parseError
  | .typeError => .parseError
  | .invalidSecret _ => .otpError
  | .invalidParameter _ => .otpError
  | .parseError => .otpError
  | .otpError => .otpError
  | .attributeError => .attributeError

/-- `OTPFactory.parse_otpauth_url`. -/
def parseOtpauthUrl (url : Str) : Except PyErr OTPEntryM :=
  if !strStartsWith (str "otpauth://") url then .error .parseError
  else
    match parseOtpauthBody url with
    | .ok e => .ok e
    | .error e => .error (factoryWrapErr e)

/- ### JSON values and `OTPFactory.create_from_2fas` -/

/-- JSON values as produced by `json.loads` (JSON `null` doubles as the
Python `None` that `dict.get` returns for a missing key; only integral
JSON numbers are modelled). -/
inductive JVal
  | null
  | bool (b : Bool)
  | num (n : Int)
  | str (s : Str)
  | arr (elems : List JVal)
  | obj (fields : List (Str × JVal))

def jTruthy : JVal → Bool
  | .null => false
  | .bool b => b
  | .num n => decide (n ≠ 0)
  | .str s => decide (s ≠ [])
  | .arr l => !l.isEmpty
  | .obj fs => !fs.isEmpty

/-- Raw dict lookup (`d[k]`); with duplicate keys the last binding wins,
as in `json.loads`. -/
def jGet (fs : List (Str × JVal)) (k : Str) : Option JVal :=
  (fs.reverse.find? (fun p => p.1 == k)).map (·.2)

/-- `k in d`. -/
def jHas (fs : List (Str × JVal)) (k : Str) : Bool :=
  fs.any (fun p => p.1 == k)

/-- `d.get(k, dflt)`: the default applies only when the key is missing;
a stored JSON `null` (Python `None`) is returned as such. -/
def jGetD (fs : List (Str × JVal)) (k : Str) (dflt : JVal) : JVal :=
  (jGet fs k).getD dflt

def toPyV : JVal → PyV
  | .str s => .str s
  | v => .other (jTruthy v)

/-- Python `int(x)` on a JSON value. -/
def pyIntJ : JVal → Except PyErr Int
  | .num n => .ok n
  | .bool b => .ok (if b then 1 else 0)
  | .str s =>
    match pyIntOfStr s with
    | some n => .ok n
    | none => .error .valueError
  | .null => .error .typeError
  | .arr _ => .error .typeError
  | .obj _ => .error .typeError

/-- `str.upper()` on a JSON value (`AttributeError` when not a string). -/
def jUpper : JVal → Except PyErr Str
  | .str s => .ok (pyUpper s)
  | _ => .error .attributeError

/-- `OTPFactory.create_from_2fas`.  The `tokenType`, `digits` and
`algorithm` conversions happen before the `try` block, so their
`ValueError`/`AttributeError` escape unwrapped; `period`/`counter`
conversion and entry construction happen inside the `try`, whose
`ValueError`/`TypeError` become `ParseError` and whose `OTPError`
subclasses are re-raised as plain `OTPError`. -/
def createFrom2fas (service : JVal) : Except PyErr OTPEntryM :=
  match service with
  | .obj fields =>
    let secret := jGetD fields (str "secret") (.str [])
    if !jTruthy secret then .error .parseError
    else
      let name := jGetD fields (str "name") (.str [])
      if !jTruthy name then .error .parseError
      else
        let otpData : List (Str × JVal) :=
          match jGet fields (str "otp") with
          | some (.obj fs) => fs
          | _ => []
        let issuer := jGetD otpData (str "issuer") name
        let account := jGetD otpData (str "account") (.str [])
        match jUpper (jGetD otpData (str "tokenType") (.str (str "TOTP"))) with
        | .error e => .error e
        | .ok tokenType =>
          match pyIntJ (jGetD otpData (str "digits") (.num 6)) with
          | .error e => .error e
          | .ok digits =>
            match jUpper (jGetD otpData (str "algorithm") (.str (str "SHA1"))) with
            | .error e => .error e
            | .ok algorithm =>
              let inner : Except PyErr OTPEntryM :=
                if tokenType = str "HOTP" then
                  match pyIntJ (jGetD otpData (str "counter") (.num 0)) with
                  | .error e => .error e
                  | .ok counter =>
                    match mkHOTPv (toPyV issuer) (toPyV secret)
                        (if jTruthy account then some (toPyV account) else none)
                        digits counter algorithm with
                    | .error e => .error e
                    | .ok e => .ok (.hotp e)
                else
                  match pyIntJ (jGetD otpData (str "period") (.num 30)) with
                  | .error e => .error e
                  | .ok period =>
                    match mkTOTPv (toPyV issuer) (toPyV secret)
                        (if jTruthy account then some (toPyV account) else none)
                        digits period algorithm with
                    | .error e => .error e
                    | .ok e => .ok (.totp e)
              match inner with
              | .ok e => .ok e
              | .error e => .error (factoryWrapErr e)
  | _ => .error .parseError

end TwoFas

namespace TwoFas

/- ### base64 (`b64decode(..., validate=True)`) -/

def isB64Char (c : Char) : Bool :=
  ('A' ≤ c && c ≤ 'Z') || ('a' ≤ c && c ≤ 'z') || ('0' ≤ c && c ≤ '9')
    || c = '+' || c = '/'

def b64CharVal (c : Char) : Nat :=
  if 'A' ≤ c && c ≤ 'Z' then c.toNat - 65
  else if 'a' ≤ c && c ≤ 'z' then c.toNat - 71
  else if '0' ≤ c && c ≤ '9' then c.toNat + 4
  else if c = '+' then 62
  else 63

/-- Byte output of `a2b_base64` on the data characters (without padding). -/
def b64Bytes : Str → List Nat
  | c1 :: c2 :: c3 :: c4 :: rest =>
    let n := b64CharVal c1 * 262144 + b64CharVal c2 * 4096 + b64CharVal c3 * 64 + b64CharVal c4
    n / 65536 :: (n / 256) % 256 :: n % 256 :: b64Bytes rest
  | [c1, c2, c3] =>
    let n := b64CharVal c1 * 4096 + b64CharVal c2 * 64 + b64CharVal c3
    [n / 1024, (n / 4) % 256]
  | [c1, c2] =>
    let n := b64CharVal c1 * 64 + b64CharVal c2
    [n / 16]
  | [_] => []
  | [] => []

/-- `base64.b64decode(s, validate=True)` (CPython 3.11): the regex admits
data characters followed by at most two `=`; strict `a2b_base64` then
accepts a data run of length 0 mod 4 with any admitted padding (provided
the padding follows at least one data character), a run of length 2 mod 4
padded by exactly `==`, and a run of length 3 mod 4 padded by exactly `=`.
A data length of 1 mod 4, missing or excess padding of a 2 or 3 mod 4 run,
and padding with no data (leading padding) are errors. -/
def b64decodeStrict (s : Str) : Option (List Nat) :=
  let data := s.takeWhile isB64Char
  let rest := s.drop data.length
  if !(rest.all (fun c => c = '=')) then none
  else if rest.length > 2 then none
  else if data.length % 4 = 0 then
    if data.length = 0 ∧ rest.length ≠ 0 then none else some (b64Bytes data)
  else if data.length % 4 = 2 ∧ rest.length = 2 then some (b64Bytes data)
  else if data.length % 4 = 3 ∧ rest.length = 1 then some (b64Bytes data)
  else none

/- ### Decryption engine (`BackupProcessors/twofas.py`) -/

/-- Errors of the backup-processing layer.  `pyExc` stands for any other
Python exception escaping to `process_backup`'s generic handler. -/
inductive BErr
  | unsupported (appName path : Str)
  | corrupted (path msg : Str)
  | invalidTag
  | pyExc
deriving Repr, DecidableEq

inductive AeadResult
  | ok (plaintext : List Nat)
  | invalidTag
  | failure
deriving Repr, DecidableEq

/-- External primitives used by the processor, abstracted: PBKDF2-HMAC-SHA256
with 10000 iterations and 32-byte output, AES-GCM decryption (no associated
data), and `json.loads`. -/
structure CryptoOracle where
  pbkdf2Sha256 : Str → List Nat → List Nat
  aesgcmDecrypt : List Nat → List Nat → List Nat → AeadResult
  jsonParse : Str → Option JVal

def MAX_PASSWORD_ATTEMPTS : Nat := 3

/-- `TwoFASProcessor._split_encrypted_blob`. -/
def splitEncryptedBlob (blob : JVal) (source : Str) :
    Except BErr (List Nat × List Nat × List Nat) :=
  let parts : List Str :=
    match blob with
    | .str s => splitAll ':' (pyStrip s)
    | _ => []
  match parts with
  | [p0, p1, p2] =>
    match b64decodeStrict p0, b64decodeStrict p1, b64decodeStrict p2 with
    | some db, some salt, some iv =>
      if db.isEmpty || iv.isEmpty then
        .error (.corrupted source (str "Donnees ou IV manquants"))
      else .ok (db, salt, iv)
    | _, _, _ => .error (.corrupted source (str "Encodage base64 invalide"))
  | _ => .error (.corrupted source (str "Structure de champ chiffre invalide"))

/-- `TwoFASProcessor._resolve_key`.  A truthy non-string `key_encoded`
makes `b64decode` raise `TypeError`, which escapes (`pyExc`). -/
def resolveKey (O : CryptoOracle) (password : Option Str) (keyEncoded : JVal)
    (salt : List Nat) (source : Str) : Except BErr (List Nat) :=
  if jTruthy keyEncoded then
    match keyEncoded with
    | .str ks =>
      match b64decodeStrict ks with
      | none => .error (.corrupted source (str "Cle encodee invalide dans le backup"))
      | some kb =>
        if kb.length = 16 || kb.length = 24 || kb.length = 32 then .ok kb
        else .error (.corrupted source (str "Longueur de cle AES inattendue"))
    | _ => .error .pyExc
  else
    match password with
    | none => .error (.corrupted source (str "Mot de passe requis pour dechiffrer le backup 2FAS"))
    | some p => .ok (O.pbkdf2Sha256 p salt)

/-- `TwoFASProcessor._decrypt_encrypted_blob`: split, resolve the key,
AES-GCM decrypt, decode UTF-8.  `InvalidTag` is re-raised as such; any
other decryption failure becomes a corruption error. -/
def decryptEncryptedBlob (O : CryptoOracle) (blob : JVal) (password : Option Str)
    (keyEncoded : JVal) (source : Str) : Except BErr Str :=
  match splitEncryptedBlob blob source with
  | .error e => .error e
  | .ok (db, salt, iv) =>
    match resolveKey O password keyEncoded salt source with
    | .error e => .error e
    | .ok key =>
      match O.aesgcmDecrypt key iv db with
      | .ok pt =>
        match utf8DecodeStrict pt with
        | some s => .ok s
        | none => .error (.corrupted source (str "Echec du dechiffrement"))
      | .invalidTag => .error .invalidTag
      | .failure => .error (.corrupted source (str "Echec du dechiffrement"))

inductive PromptAnswer
  | given (s : Str)
  | cancelled
deriving Repr, DecidableEq

/-- The interactive channel consumed by `_prompt_for_password`: whether
stdin is a TTY, and the user's response to the k-th `getpass` call (in
every reachable call sequence the k-th call is made with `attempt = k`,
so the stream is indexed by the `attempt` argument). -/
structure PromptEnv where
  isatty : Bool
  answer : Nat → PromptAnswer

/-- `TwoFASProcessor._prompt_for_password`: fails fast with a corruption
error when stdin is not a TTY, and when the user cancels (EOF/interrupt). -/
def promptForPassword (env : PromptEnv) (attempt : Nat) (source : Str) :
    Except BErr Str :=
  if !env.isatty then
    .error (.corrupted source
      (str "Mot de passe requis pour ce backup chiffre (execution interactive uniquement)."))
  else
    match env.answer attempt with
    | .given s => .ok s
    | .cancelled =>
      .error (.corrupted source (str "Saisie du mot de passe annulee par l utilisateur"))

/-- `TwoFASProcessor._is_encrypted_backup`. -/
def isEncryptedBackup (data : JVal) : Bool :=
  match data with
  | .obj fs =>
    match jGetD fs (str "servicesEncrypted") .null with
    | .str s => decide (pyStrip s ≠ [])
    | _ => false
  | _ => false

def jSet (fs : List (Str × JVal)) (k : Str) (v : JVal) : List (Str × JVal) :=
  if jHas fs k then fs.map (fun p => if p.1 == k then (p.1, v) else p)
  else fs ++ [(k, v)]

def jDel (fs : List (Str × JVal)) (k : Str) : List (Str × JVal) :=
  fs.filter (fun p => !(p.1 == k))

/-- Python `a or b`. -/
def pyOrJ (a b : JVal) : JVal := if jTruthy a then a else b

/-- Python `x is None` on a JSON value. -/
def jIsNull : JVal → Bool
  | .null => true
  | _ => false

/-- The `while True` loop of `_decrypt_backup_if_needed`.  On success
returns the decrypted document and the new cached password (set only when
the key was password-derived); on failure the processor's cached password
is untouched (the caller keeps the old state). -/
def decryptLoop (O : CryptoOracle) (env : PromptEnv) (source : Str)
    (fields : List (Str × JVal)) (servicesEnc referenceEnc keyEncoded : JVal)
    (cached0 : Option Str) (password : Option Str) (attempts : Nat) :
    Except BErr (JVal × Option Str) :=
  match decryptEncryptedBlob O servicesEnc password keyEncoded source with
  | .ok ptStr =>
    match O.jsonParse ptStr with
    | none => .error (.corrupted source (str "Donnees JSON invalides apres dechiffrement"))
    | some payload =>
      let dataCopy : JVal :=
        .obj (jDel (jSet fields (str "services") payload) (str "servicesEncrypted"))
      match (if jTruthy referenceEnc then
               match decryptEncryptedBlob O referenceEnc password keyEncoded source with
               | .ok _ => Except.ok ()
               | .error .invalidTag => Except.ok ()
               | .error e => Except.error e
             else Except.ok ()) with
      | .error e => .error e
      | .ok _ =>
        .ok (dataCopy,
          if jIsNull keyEncoded && password.isSome then password else cached0)
  | .error .invalidTag =>
    if !jIsNull keyEncoded then
      .error (.corrupted source (str "Cle de dechiffrement invalide ou donnees corrompues"))
    else
      if attempts + 1 ≥ MAX_PASSWORD_ATTEMPTS then
        .error (.corrupted source (str "Mot de passe invalide pour le backup 2FAS"))
      else
        match promptForPassword env (attempts + 1) source with
        | .error e => .error e
        | .ok p =>
          decryptLoop O env source fields servicesEnc referenceEnc keyEncoded
            cached0 (some p) (attempts + 1)
  | .error e => .error e
  termination_by MAX_PASSWORD_ATTEMPTS - attempts
  decreasing_by simp [MAX_PASSWORD_ATTEMPTS] at *; omega

/-- `TwoFASProcessor._decrypt_backup_if_needed`: pass-through for plain
documents; otherwise resolve the blobs, use the instance-cached password
as the first candidate, prompting only when there is neither an embedded
key nor a cached password. -/
def decryptBackupIfNeeded (O : CryptoOracle) (env : PromptEnv)
    (cached0 : Option Str) (data : JVal) (source : Str) :
    Except BErr (JVal × Option Str) :=
  if !isEncryptedBackup data then .ok (data, cached0)
  else
    match data with
    | .obj fields =>
      let servicesEnc := jGetD fields (str "servicesEncrypted") .null
      let referenceEnc := jGetD fields (str "reference") .null
      let keyEncoded :=
        pyOrJ (jGetD fields (str "keyEncoded") .null) (jGetD fields (str "key") .null)
      if jIsNull keyEncoded && cached0.isNone then
        match promptForPassword env 0 source with
        | .error e => .error e
        | .ok p =>
          decryptLoop O env source fields servicesEnc referenceEnc keyEncoded
            cached0 (some p) 0
      else
        decryptLoop O env source fields servicesEnc referenceEnc keyEncoded
          cached0 cached0 0
    | _ => .ok (data, cached0)

end TwoFas

namespace TwoFas

/- ### Format processor (`_is_valid_2fas_format`, extraction, JSON/ZIP) -/

/-- `TwoFASProcessor._is_valid_2fas_format`. -/
def isValid2fasFormat (data : JVal) : Bool :=
  match data with
  | .obj fs =>
    jHas fs (str "services") || jHas fs (str "entries") || jHas fs (str "secret")
  | .arr (first :: _) =>
    match first with
    | .obj fs => jHas fs (str "secret")
    | _ => false
  | _ => false

/-- Python `for x in v`: lists iterate elements, strings iterate
characters, dicts iterate keys; other values raise `TypeError`. -/
def pyIter : JVal → Except BErr (List JVal)
  | .arr l => .ok l
  | .str s => .ok (s.map (fun c => .str [c]))
  | .obj fs => .ok (fs.map (fun p => .str p.1))
  | _ => .error .pyExc

/-- `TwoFASProcessor._create_otp_entry_from_service`: non-dict services
and every construction failure yield `None` (skipped with a warning). -/
def createOtpEntryFromService (service : JVal) : Option OTPEntryM :=
  match service with
  | .obj _ => (createFrom2fas service).toOption
  | _ => none

/-- `TwoFASProcessor._extract_entries_from_data`. -/
def extractEntriesFromData (data : JVal) : Except BErr (List OTPEntryM) :=
  match (match data with
         | .obj fs =>
           if jHas fs (str "services") then pyIter (jGetD fs (str "services") .null)
           else if jHas fs (str "entries") then pyIter (jGetD fs (str "entries") .null)
           else Except.ok [data]
         | .arr l => Except.ok l
         | _ => Except.ok ([] : List JVal)) with
  | .error e => .error e
  | .ok services => .ok (services.filterMap createOtpEntryFromService)

/-- `TwoFASProcessor._process_json_backup` given the parsed document
(`none` when `json.load` raises), threading the processor's cached
password; on an exception the cache keeps whatever value it had. -/
def processJsonBackup (O : CryptoOracle) (env : PromptEnv) (st : Option Str)
    (doc : Option JVal) (path : Str) :
    Except BErr (List OTPEntryM) × Option Str :=
  match doc with
  | none => (.error .pyExc, st)
  | some data =>
    if !isValid2fasFormat data then (.error (.unsupported (str "2FAS") path), st)
    else
      match decryptBackupIfNeeded O env st data path with
      | .error e => (.error e, st)
      | .ok (d, st2) =>
        match extractEntriesFromData d with
        | .ok es => (.ok es, st2)
        | .error e => (.error e, st2)

/-- A ZIP member: its name and its parsed JSON content (`none` when
`json.load` raises on it). -/
structure ZipMember where
  name : Str
  content : Option JVal

/-- The member loop of `TwoFASProcessor._process_zip_backup`: every
`*.json` member is parsed and sniffed; valid members are decrypted and
extracted in iteration order; any exception aborts the container but the
password cached so far survives on the instance. -/
def zipLoop (O : CryptoOracle) (env : PromptEnv) (path : Str) :
    List ZipMember → Option Str → Bool → List OTPEntryM →
    Except BErr (List OTPEntryM × Bool) × Option Str
  | [], st, found, acc => (.ok (acc, found), st)
  | m :: rest, st, found, acc =>
    if !(List.isSuffixOf (str ".json") m.name) then
      zipLoop O env path rest st found acc
    else
      match m.content with
      | none => (.error .pyExc, st)
      | some data =>
        if isValid2fasFormat data then
          match decryptBackupIfNeeded O env st data (path ++ str "!/" ++ m.name) with
          | .error e => (.error e, st)
          | .ok (d, st2) =>
            match extractEntriesFromData d with
            | .ok es => zipLoop O env path rest st2 true (acc ++ es)
            | .error e => (.error e, st2)
        else zipLoop O env path rest st found acc

/-- `TwoFASProcessor._process_zip_backup`: unsupported-format error when no
member passed the sniff. -/
def processZipBackup (O : CryptoOracle) (env : PromptEnv) (st : Option Str)
    (path : Str) (members : List ZipMember) :
    Except BErr (List OTPEntryM) × Option Str :=
  match zipLoop O env path members st false [] with
  | (.ok (es, found), st2) =>
    (if found then .ok es else .error (.unsupported (str "2FAS") path), st2)
  | (.error e, st2) => (.error e, st2)

/-- The exception mapping of `TwoFASProcessor.process_backup`:
`UnsupportedFormatError` and `CorruptedBackupError` propagate, any other
exception becomes a `CorruptedBackupError`. -/
def pbWrap (path : Str) : BErr → BErr
  | .pyExc => .corrupted path (str "exception")
  | .invalidTag => .corrupted path (str "exception")
  | e => e

/-- `process_backup` on a ZIP container (after the existence/extension
checks), with the generic exception wrapper applied. -/
def processBackupZip (O : CryptoOracle) (env : PromptEnv) (st : Option Str)
    (path : Str) (members : List ZipMember) :
    Except BErr (List OTPEntryM) × Option Str :=
  match processZipBackup O env st path members with
  | (.error e, st2) => (.error (pbWrap path e), st2)
  | r => r

/-- `process_backup` on a JSON container, with the wrapper applied. -/
def processBackupJson (O : CryptoOracle) (env : PromptEnv) (st : Option Str)
    (doc : Option JVal) (path : Str) :
    Except BErr (List OTPEntryM) × Option Str :=
  match processJsonBackup O env st doc path with
  | (.error e, st2) => (.error (pbWrap path e), st2)
  | r => r

end TwoFas

namespace TwoFas

def storedAccount (account : Option Str) : Option Str :=
  match account with
  | some a => if a ≠ [] then some (sanitizeString a) else none
  | none => none

def genLabel (issuer : Str) (account : Option Str) : Str :=
  match account with
  | some a => if a ≠ [] then issuer ++ ':' :: a else issuer
  | none => issuer

set_option maxHeartbeats 1000000 in
theorem mkTOTP_eq (issuer secret : Str) (account : Option Str) (digits period : Int)
    (algorithm : Str) :
    mkTOTP issuer secret account digits period algorithm =
      (if normalizeSecret secret = [] then .error (.invalidSecret [])
       else if !isValidBase32 (normalizeSecret secret) then
         .error (.invalidSecret (normalizeSecret secret))
       else if sanitizeString issuer = [] then .error (.invalidParameter (str "issuer"))
       else if !(OTPConfig.VALID_DIGITS.contains digits) then
         .error (.invalidParameter (str "digits"))
       else if !(OTPConfig.VALID_ALGORITHMS.contains (pyUpper algorithm)) then
         .error (.invalidParameter (str "algorithm"))
       else if period < OTPConfig.MIN_PERIOD then .error (.invalidParameter (str "period"))
       else if period > OTPConfig.MAX_PERIOD then .error (.invalidParameter (str "period"))
       else .ok { issuer := sanitizeString issuer, secret := normalizeSecret secret,
                  account := storedAccount account, digits := digits, period := period,
                  algorithm := pyUpper algorithm,
                  label := genLabel (sanitizeString issuer) (storedAccount account) }) := by
  cases account with
  | none =>
    simp only [mkTOTP, mkTOTPv, otpBaseInit, sanitizePV, normalizeSecretPV, pvTruthy,
      storedAccount, genLabel, Option.map_none]
    split_ifs <;> simp
  | some a =>
    by_cases h4 : a = [] <;>
      simp only [mkTOTP, mkTOTPv, otpBaseInit, sanitizePV, normalizeSecretPV, pvTruthy,
        storedAccount, genLabel, h4, Option.map_some] <;>
      split_ifs <;> simp_all

set_option maxHeartbeats 1000000 in
theorem mkHOTP_eq (issuer secret : Str) (account : Option Str) (digits counter : Int)
    (algorithm : Str) :
    mkHOTP issuer secret account digits counter algorithm =
      (if normalizeSecret secret = [] then .error (.invalidSecret [])
       else if !isValidBase32 (normalizeSecret secret) then
         .error (.invalidSecret (normalizeSecret secret))
       else if sanitizeString issuer = [] then .error (.invalidParameter (str "issuer"))
       else if !(OTPConfig.VALID_DIGITS.contains digits) then
         .error (.invalidParameter (str "digits"))
       else if !(OTPConfig.VALID_ALGORITHMS.contains (pyUpper algorithm)) then
         .error (.invalidParameter (str "algorithm"))
       else if counter < 0 then .error (.invalidParameter (str "counter"))
       else .ok { issuer := sanitizeString issuer, secret := normalizeSecret secret,
                  account := storedAccount account, digits := digits, counter := counter,
                  algorithm := pyUpper algorithm,
                  label := genLabel (sanitizeString issuer) (storedAccount account) }) := by
  cases account with
  | none =>
    simp only [mkHOTP, mkHOTPv, otpBaseInit, sanitizePV, normalizeSecretPV, pvTruthy,
      storedAccount, genLabel, Option.map_none]
    split_ifs <;> simp
  | some a =>
    by_cases h4 : a = [] <;>
      simp only [mkHOTP, mkHOTPv, otpBaseInit, sanitizePV, normalizeSecretPV, pvTruthy,
        storedAccount, genLabel, h4, Option.map_some] <;>
      split_ifs <;> simp_all

end TwoFas

namespace TwoFas

/-- C8: In the serialized otpauth URI, a TOTP entry includes the `period`
query parameter iff its period differs from the default 30; an HOTP entry
always includes `counter`; and `secret`, `issuer`, `digits`, `algorithm`
are present for every entry. -/
theorem C8_uri_param_presence :
    (∀ t : TOTPEntryM,
      (str "period") ∈ (otpauthParams (.totp t)).map Prod.fst
        ↔ t.period ≠ OTPConfig.DEFAULT_PERIOD)
    ∧ (∀ h : HOTPEntryM, (str "counter") ∈ (otpauthParams (.hotp h)).map Prod.fst)
    ∧ (∀ e : OTPEntryM,
        (str "secret") ∈ (otpauthParams e).map Prod.fst
        ∧ (str "issuer") ∈ (otpauthParams e).map Prod.fst
        ∧ (str "digits") ∈ (otpauthParams e).map Prod.fst
        ∧ (str "algorithm") ∈ (otpauthParams e).map Prod.fst) := by
  refine ⟨?_, ?_, ?_⟩
  · intro t
    by_cases hp : t.period = OTPConfig.DEFAULT_PERIOD <;>
      simp [otpauthParams, totpSpecificParams, hp, str]
  · intro h
    simp [otpauthParams, hotpSpecificParams]
  · intro e
    cases e <;> simp [otpauthParams, totpSpecificParams, hotpSpecificParams]

def c10Entry : HOTPEntryM :=
  { issuer := str "Bank", secret := str "JBSWY3DPEHPK3PXP", account := none,
    digits := 6, counter := 0, algorithm := str "SHA1", label := str "Bank" }

/-- C10: `increment_counter(steps)` with `steps >= 1` returns
`counter + steps` and changes only the counter; `steps < 1` raises a
parameter error (the entry is untouched: no updated entry is produced). -/
theorem C10_increment_counter (e : HOTPEntryM) (steps : Int) :
    (1 ≤ steps →
      ∃ e2, incrementCounter e steps = .ok (e.counter + steps, e2)
        ∧ e2.counter = e.counter + steps ∧ e2.issuer = e.issuer
        ∧ e2.secret = e.secret ∧ e2.account = e.account ∧ e2.digits = e.digits
        ∧ e2.algorithm = e.algorithm ∧ e2.label = e.label)
    ∧ (steps < 1 →
      incrementCounter e steps = .error (.invalidParameter (str "steps"))) := by
  unfold incrementCounter
  constructor
  · intro h
    rw [if_neg (by omega)]
    exact ⟨_, rfl, rfl, rfl, rfl, rfl, rfl, rfl, rfl⟩
  · intro h
    rw [if_pos h]

theorem C10_increment_counter_witness :
    ((1:Int) ≤ 5
      ∧ ∃ e2, incrementCounter c10Entry 5 = .ok (c10Entry.counter + 5, e2)
        ∧ e2.counter = c10Entry.counter + 5 ∧ e2.issuer = c10Entry.issuer
        ∧ e2.secret = c10Entry.secret ∧ e2.account = c10Entry.account
        ∧ e2.digits = c10Entry.digits ∧ e2.algorithm = c10Entry.algorithm
        ∧ e2.label = c10Entry.label)
    ∧ ((0:Int) < 1
      ∧ incrementCounter c10Entry 0 = .error (.invalidParameter (str "steps"))) :=
  ⟨⟨by norm_num, (C10_increment_counter c10Entry 5).1 (by norm_num)⟩,
   ⟨by norm_num, (C10_increment_counter c10Entry 0).2 (by norm_num)⟩⟩

end TwoFas

namespace TwoFas

/- Validation-rule predicates, phrased over the sanitized/normalized values
exactly as `_validate_common_params` checks them. -/

def secretRuleOk (secret : Str) : Prop :=
  normalizeSecret secret ≠ [] ∧ isValidBase32 (normalizeSecret secret) = true

def issuerRuleOk (issuer : Str) : Prop := sanitizeString issuer ≠ []

def digitsRuleOk (digits : Int) : Prop := digits ∈ OTPConfig.VALID_DIGITS

def algorithmRuleOk (a : Str) : Prop := pyUpper a ∈ OTPConfig.VALID_ALGORITHMS

def periodRuleOk (p : Int) : Prop :=
  OTPConfig.MIN_PERIOD ≤ p ∧ p ≤ OTPConfig.MAX_PERIOD

def counterRuleOk (c : Int) : Prop := 0 ≤ c

/-- C7: construction validates secret (non-empty, base32) before issuer,
before digits, before algorithm, before the type-specific rule, and the
error names the first violated field; in particular an input violating
both the secret rule and a type-specific bound reports the secret
violation. -/
theorem C7_validation_order (issuer secret : Str) (account : Option Str)
    (digits period counter : Int) (algorithm : Str) :
    ((∃ s', mkTOTP issuer secret account digits period algorithm
        = .error (.invalidSecret s')) ↔ ¬ secretRuleOk secret)
    ∧ (mkTOTP issuer secret account digits period algorithm
        = .error (.invalidParameter (str "issuer"))
        ↔ secretRuleOk secret ∧ ¬ issuerRuleOk issuer)
    ∧ (mkTOTP issuer secret account digits period algorithm
        = .error (.invalidParameter (str "digits"))
        ↔ secretRuleOk secret ∧ issuerRuleOk issuer ∧ ¬ digitsRuleOk digits)
    ∧ (mkTOTP issuer secret account digits period algorithm
        = .error (.invalidParameter (str "algorithm"))
        ↔ secretRuleOk secret ∧ issuerRuleOk issuer ∧ digitsRuleOk digits
            ∧ ¬ algorithmRuleOk algorithm)
    ∧ (mkTOTP issuer secret account digits period algorithm
        = .error (.invalidParameter (str "period"))
        ↔ secretRuleOk secret ∧ issuerRuleOk issuer ∧ digitsRuleOk digits
            ∧ algorithmRuleOk algorithm ∧ ¬ periodRuleOk period)
    ∧ ((∃ s', mkHOTP issuer secret account digits counter algorithm
        = .error (.invalidSecret s')) ↔ ¬ secretRuleOk secret)
    ∧ (mkHOTP issuer secret account digits counter algorithm
        = .error (.invalidParameter (str "counter"))
        ↔ secretRuleOk secret ∧ issuerRuleOk issuer ∧ digitsRuleOk digits
            ∧ algorithmRuleOk algorithm ∧ ¬ counterRuleOk counter) := by
  rw [mkTOTP_eq, mkHOTP_eq]
  unfold secretRuleOk issuerRuleOk digitsRuleOk algorithmRuleOk periodRuleOk counterRuleOk
  unfold OTPConfig.MIN_PERIOD OTPConfig.MAX_PERIOD
  refine ⟨?_, ?_, ?_, ?_, ?_, ?_, ?_⟩ <;>
    split_ifs <;> simp_all <;> first | omega | decide

end TwoFas

namespace TwoFas

/-- C5 counterexample: with a well-formed service whose `otp.digits` is the
non-numeric string "abc", `create_from_2fas` raises a bare `ValueError`
(the `int(digits)` conversion happens before the `try` block), not the
`ParseError` the claim requires. -/
def c5Service (otp : List (Str × JVal)) : JVal :=
  .obj [(str "secret", .str (str "JBSWY3DPEHPK3PXP")), (str "name", .str (str "GitHub")),
        (str "otp", .obj otp)]

theorem C5_counterexample :
    createFrom2fas (c5Service [(str "digits", .str (str "abc"))]) = .error .valueError
    ∧ createFrom2fas (c5Service [(str "digits", .str (str "abc"))]) ≠ .error .parseError := by
  have h1 : createFrom2fas (c5Service [(str "digits", .str (str "abc"))])
      = .error .valueError := rfl
  refine ⟨h1, ?_⟩
  rw [h1]
  intro h
  simp at h

/-- C5 (amended): a non-numeric `period` or `counter` string raises
`ParseError` (their conversions sit inside the `try`), while a non-numeric
`digits` string raises a bare `ValueError` that escapes unwrapped. -/
theorem C5_numeric_subfields
    (fields otpFs : List (Str × JVal)) (s : Str)
    (hsvc : jGet fields (str "otp") = some (.obj otpFs))
    (hsec : jTruthy (jGetD fields (str "secret") (.str [])) = true)
    (hname : jTruthy (jGetD fields (str "name") (.str [])) = true)
    (halg : jGet otpFs (str "algorithm") = none) :
    (jGet otpFs (str "tokenType") = none →
     pyIntOfStr s = none →
     jGet otpFs (str "digits") = some (.str s) →
       createFrom2fas (.obj fields) = .error .valueError)
    ∧ (jGet otpFs (str "tokenType") = none →
       pyIntOfStr s = none →
       jGet otpFs (str "digits") = none →
       jGet otpFs (str "period") = some (.str s) →
         createFrom2fas (.obj fields) = .error .parseError)
    ∧ (jGet otpFs (str "tokenType") = some (.str (str "HOTP")) →
       pyIntOfStr s = none →
       jGet otpFs (str "digits") = none →
       jGet otpFs (str "counter") = some (.str s) →
         createFrom2fas (.obj fields) = .error .parseError)
    ∧ (jGet otpFs (str "digits") = some (.str (str "6")) →
       jGet otpFs (str "period") = some (.str (str "30")) →
       ∀ otpFs2 fields2,
         jGet otpFs2 (str "digits") = some (.num 6) →
         jGet otpFs2 (str "period") = some (.num 30) →
         (∀ k, ¬ k = str "digits" → ¬ k = str "period" → jGet otpFs2 k = jGet otpFs k) →
         jGet fields2 (str "otp") = some (.obj otpFs2) →
         (∀ k, ¬ k = str "otp" → jGet fields2 k = jGet fields k) →
         createFrom2fas (.obj fields2) = createFrom2fas (.obj fields)) := by
  simp only [jGetD] at hsec hname
  have hU1 : pyUpper (str "TOTP") = str "TOTP" := by decide
  have hU2 : pyUpper (str "HOTP") = str "HOTP" := by decide
  have hNe : ¬ (str "TOTP" = str "HOTP") := by decide
  refine ⟨?_, ?_, ?_, ?_⟩
  · intro htok hnn hdig
    simp [createFrom2fas, jGetD, hsvc, hsec, hname, halg, htok, hdig, hnn, pyIntJ, jUpper]
  · intro htok hnn hdig hper
    simp [createFrom2fas, jGetD, hsvc, hsec, hname, halg, htok, hdig, hper, hnn,
      pyIntJ, jUpper, factoryWrapErr, hU1, hNe]
  · intro htok hnn hdig hcnt
    simp [createFrom2fas, jGetD, hsvc, hsec, hname, halg, htok, hdig, hcnt, hnn,
      pyIntJ, jUpper, factoryWrapErr, hU2]
  · intro hdig hper otpFs2 fields2 hdig2 hper2 hagO hotp2 hagF
    have hsec2 := hagF (str "secret") (by decide)
    have hname2 := hagF (str "name") (by decide)
    have hiss2 := hagO (str "issuer") (by decide) (by decide)
    have hacc2 := hagO (str "account") (by decide) (by decide)
    have htok2 := hagO (str "tokenType") (by decide) (by decide)
    have halg2 := hagO (str "algorithm") (by decide) (by decide)
    have hc2 := hagO (str "counter") (by decide) (by decide)
    have hd6 : pyIntOfStr (str "6") = some 6 := rfl
    have hp30 : pyIntOfStr (str "30") = some 30 := rfl
    simp only [createFrom2fas, jGetD, hsvc, hotp2, hsec2, hname2, hiss2, hacc2, htok2,
      halg2, hc2, hdig, hdig2, hper, hper2, hd6, hp30, Option.getD_some, pyIntJ]

/-- Witness for `C5_numeric_subfields` at concrete services. -/
theorem C5_numeric_subfields_witness :
    createFrom2fas (c5Service [(str "digits", .str (str "abc"))]) = .error .valueError
    ∧ createFrom2fas (c5Service [(str "period", .str (str "abc"))]) = .error .parseError
    ∧ createFrom2fas (c5Service [(str "tokenType", .str (str "HOTP")),
        (str "counter", .str (str "abc"))]) = .error .parseError :=
  ⟨(C5_numeric_subfields
      [(str "secret", JVal.str (str "JBSWY3DPEHPK3PXP")), (str "name", JVal.str (str "GitHub")),
       (str "otp", JVal.obj [(str "digits", JVal.str (str "abc"))])]
      [(str "digits", JVal.str (str "abc"))] (str "abc")
      rfl rfl rfl rfl).1 rfl rfl rfl,
   (C5_numeric_subfields
      [(str "secret", JVal.str (str "JBSWY3DPEHPK3PXP")), (str "name", JVal.str (str "GitHub")),
       (str "otp", JVal.obj [(str "period", JVal.str (str "abc"))])]
      [(str "period", JVal.str (str "abc"))] (str "abc")
      rfl rfl rfl rfl).2.1 rfl rfl rfl rfl,
   (C5_numeric_subfields
      [(str "secret", JVal.str (str "JBSWY3DPEHPK3PXP")), (str "name", JVal.str (str "GitHub")),
       (str "otp", JVal.obj [(str "tokenType", JVal.str (str "HOTP")),
         (str "counter", JVal.str (str "abc"))])]
      [(str "tokenType", JVal.str (str "HOTP")), (str "counter", JVal.str (str "abc"))]
      (str "abc")
      rfl rfl rfl rfl).2.2.1 rfl rfl rfl rfl⟩

end TwoFas

namespace TwoFas

/-- C9: when an encrypted container needs a password and stdin is not a
TTY, the prompt path fails immediately with a corruption error; the same
error kind is raised when the user cancels the prompt. -/
theorem C9_prompt_fail_fast (O : CryptoOracle) (env : PromptEnv) (attempt : Nat)
    (fields : List (Str × JVal)) (data : JVal) (source : Str) :
    (env.isatty = false →
      promptForPassword env attempt source
        = .error (.corrupted source
            (str "Mot de passe requis pour ce backup chiffre (execution interactive uniquement).")))
    ∧ (env.isatty = true → env.answer attempt = .cancelled →
      promptForPassword env attempt source
        = .error (.corrupted source (str "Saisie du mot de passe annulee par l utilisateur")))
    ∧ (data = .obj fields →
       isEncryptedBackup data = true →
       pyOrJ (jGetD fields (str "keyEncoded") .null) (jGetD fields (str "key") .null) = .null →
       env.isatty = false →
       decryptBackupIfNeeded O env none data source
         = .error (.corrupted source
             (str "Mot de passe requis pour ce backup chiffre (execution interactive uniquement)."))) := by
  refine ⟨?_, ?_, ?_⟩
  · intro h
    simp [promptForPassword, h]
  · intro h1 h2
    simp [promptForPassword, h1, h2]
  · intro hd henc hkey htty
    subst hd
    simp [decryptBackupIfNeeded, henc, hkey, jIsNull, promptForPassword, htty]

def c9Doc : JVal := .obj [(str "servicesEncrypted", .str (str "AAAA:AAAA:AAAA"))]

def c9Oracle : CryptoOracle :=
  { pbkdf2Sha256 := fun _ _ => []
    aesgcmDecrypt := fun _ _ _ => .invalidTag
    jsonParse := fun _ => none }

def c9EnvNoTty : PromptEnv := { isatty := false, answer := fun _ => .given (str "pw") }

def c9EnvCancel : PromptEnv := { isatty := true, answer := fun _ => .cancelled }

/-- Witness for `C9_prompt_fail_fast` at a concrete encrypted document. -/
theorem C9_prompt_fail_fast_witness :
    (promptForPassword c9EnvNoTty 0 (str "f")
      = .error (.corrupted (str "f")
          (str "Mot de passe requis pour ce backup chiffre (execution interactive uniquement).")))
    ∧ (promptForPassword c9EnvCancel 0 (str "f")
      = .error (.corrupted (str "f")
          (str "Saisie du mot de passe annulee par l utilisateur")))
    ∧ (decryptBackupIfNeeded c9Oracle c9EnvNoTty none c9Doc (str "f")
      = .error (.corrupted (str "f")
          (str "Mot de passe requis pour ce backup chiffre (execution interactive uniquement)."))) :=
  ⟨(C9_prompt_fail_fast c9Oracle c9EnvNoTty 0
      [(str "servicesEncrypted", JVal.str (str "AAAA:AAAA:AAAA"))] c9Doc (str "f")).1 rfl,
   (C9_prompt_fail_fast c9Oracle c9EnvCancel 0
      [(str "servicesEncrypted", JVal.str (str "AAAA:AAAA:AAAA"))] c9Doc (str "f")).2.1 rfl rfl,
   (C9_prompt_fail_fast c9Oracle c9EnvNoTty 0
      [(str "servicesEncrypted", JVal.str (str "AAAA:AAAA:AAAA"))] c9Doc (str "f")).2.2
      rfl rfl rfl rfl⟩

end TwoFas

namespace TwoFas

/-- The retry loop consults the prompt stream only at indices `1` and `2`
(it asks no further question once the attempt budget is spent). -/
theorem decryptLoop_env_agree (O : CryptoOracle) (source : Str)
    (fields : List (Str × JVal)) (sEnc rEnc keyE : JVal) (cached0 : Option Str) :
    ∀ f a p (env1 env2 : PromptEnv),
      MAX_PASSWORD_ATTEMPTS - a ≤ f →
      env1.isatty = env2.isatty →
      (∀ k, k < MAX_PASSWORD_ATTEMPTS → env1.answer k = env2.answer k) →
      decryptLoop O env1 source fields sEnc rEnc keyE cached0 p a
        = decryptLoop O env2 source fields sEnc rEnc keyE cached0 p a := by
  intro f
  induction f with
  | zero =>
    intro a p env1 env2 hf htty hag
    rw [decryptLoop.eq_def, decryptLoop.eq_def]
    cases hd : decryptEncryptedBlob O sEnc p keyE source with
    | ok v => rfl
    | error e =>
      cases e with
      | invalidTag =>
        simp only []
        split
        · rfl
        · have hcond : a + 1 ≥ MAX_PASSWORD_ATTEMPTS := by
            simp [MAX_PASSWORD_ATTEMPTS] at hf ⊢
            omega
          rw [if_pos hcond, if_pos hcond]
      | unsupported a b => rfl
      | corrupted a b => rfl
      | pyExc => rfl
  | succ f ih =>
    intro a p env1 env2 hf htty hag
    rw [decryptLoop.eq_def, decryptLoop.eq_def]
    cases hd : decryptEncryptedBlob O sEnc p keyE source with
    | ok v => rfl
    | error e =>
      cases e with
      | invalidTag =>
        simp only []
        split
        · rfl
        · by_cases hb : a + 1 ≥ MAX_PASSWORD_ATTEMPTS
          · rw [if_pos hb, if_pos hb]
          · rw [if_neg hb, if_neg hb]
            have hansw : env1.answer (a + 1) = env2.answer (a + 1) :=
              hag (a + 1) (by omega)
            unfold promptForPassword
            rw [htty, hansw]
            cases env2.isatty with
            | false => rfl
            | true =>
              simp only [Bool.not_true]
              cases env2.answer (a + 1) with
              | cancelled => rfl
              | given p2 =>
                simp only []
                exact ih (a + 1) (some p2) env1 env2 (by omega) htty hag
      | unsupported a b => rfl
      | corrupted a b => rfl
      | pyExc => rfl

end TwoFas

namespace TwoFas

theorem decryptLoop_fail_step (O : CryptoOracle) (env : PromptEnv) (source : Str)
    (fields : List (Str × JVal)) (sEnc rEnc : JVal) (cached0 : Option Str)
    (p p2 : Str) (a : Nat)
    (hd : decryptEncryptedBlob O sEnc (some p) .null source = .error .invalidTag)
    (ha : a + 1 < MAX_PASSWORD_ATTEMPTS)
    (htty : env.isatty = true) (hans : env.answer (a + 1) = .given p2) :
    decryptLoop O env source fields sEnc rEnc .null cached0 (some p) a
      = decryptLoop O env source fields sEnc rEnc .null cached0 (some p2) (a + 1) := by
  rw [decryptLoop.eq_def]
  simp only [hd]
  rw [if_neg (show ¬ ((!jIsNull JVal.null) = true) by simp [jIsNull]),
    if_neg (show ¬ (a + 1 ≥ MAX_PASSWORD_ATTEMPTS) by omega)]
  simp [promptForPassword, htty, hans]

theorem decryptLoop_fail_last (O : CryptoOracle) (env : PromptEnv) (source : Str)
    (fields : List (Str × JVal)) (sEnc rEnc : JVal) (cached0 : Option Str)
    (p : Str) (a : Nat)
    (hd : decryptEncryptedBlob O sEnc (some p) .null source = .error .invalidTag)
    (ha : a + 1 ≥ MAX_PASSWORD_ATTEMPTS) :
    decryptLoop O env source fields sEnc rEnc .null cached0 (some p) a
      = .error (.corrupted source (str "Mot de passe invalide pour le backup 2FAS")) := by
  rw [decryptLoop.eq_def]
  simp only [hd]
  rw [if_neg (show ¬ ((!jIsNull JVal.null) = true) by simp [jIsNull]), if_pos ha]

theorem decryptLoop_success (O : CryptoOracle) (env : PromptEnv) (source : Str)
    (fields : List (Str × JVal)) (sEnc rEnc : JVal) (cached0 : Option Str)
    (p : Str) (a : Nat) (pt : Str) (payload : JVal)
    (hd : decryptEncryptedBlob O sEnc (some p) .null source = .ok pt)
    (hj : O.jsonParse pt = some payload)
    (href : jTruthy rEnc = false) :
    decryptLoop O env source fields sEnc rEnc .null cached0 (some p) a
      = .ok (.obj (jDel (jSet fields (str "services") payload) (str "servicesEncrypted")),
             some p) := by
  rw [decryptLoop.eq_def]
  simp [hd, hj, href, jIsNull]

theorem decryptBackupIfNeeded_entry (O : CryptoOracle) (env : PromptEnv)
    (fields : List (Str × JVal)) (source : Str) (p0 : Str)
    (henc : isEncryptedBackup (.obj fields) = true)
    (hkey : pyOrJ (jGetD fields (str "keyEncoded") .null)
              (jGetD fields (str "key") .null) = .null)
    (htty : env.isatty = true) (ha0 : env.answer 0 = .given p0) :
    decryptBackupIfNeeded O env none (.obj fields) source
      = decryptLoop O env source fields (jGetD fields (str "servicesEncrypted") .null)
          (jGetD fields (str "reference") .null) .null none (some p0) 0 := by
  unfold decryptBackupIfNeeded
  simp [henc, hkey, jIsNull, promptForPassword, htty, ha0]

theorem decryptBackupIfNeeded_cached (O : CryptoOracle) (env : PromptEnv)
    (fields : List (Str × JVal)) (source : Str) (p : Str)
    (henc : isEncryptedBackup (.obj fields) = true)
    (hkey : pyOrJ (jGetD fields (str "keyEncoded") .null)
              (jGetD fields (str "key") .null) = .null) :
    decryptBackupIfNeeded O env (some p) (.obj fields) source
      = decryptLoop O env source fields (jGetD fields (str "servicesEncrypted") .null)
          (jGetD fields (str "reference") .null) .null (some p) (some p) 0 := by
  unfold decryptBackupIfNeeded
  simp [henc, hkey, jIsNull]

end TwoFas

namespace TwoFas

/-- C3: with a password-protected container (no embedded key, no cached
password), three consecutive passwords whose derived keys fail AEAD
authentication produce a corruption error after the third failure; the
outcome never consults the prompt stream beyond index 2 (no fourth
prompt); and fewer than three failures followed by a success do not
raise. -/
theorem C3_password_retry_bound (O : CryptoOracle) (env : PromptEnv)
    (fields : List (Str × JVal)) (source : Str) (p0 p1 p2 : Str)
    (henc : isEncryptedBackup (.obj fields) = true)
    (hkey : pyOrJ (jGetD fields (str "keyEncoded") .null)
              (jGetD fields (str "key") .null) = .null)
    (htty : env.isatty = true)
    (ha0 : env.answer 0 = .given p0) (ha1 : env.answer 1 = .given p1)
    (ha2 : env.answer 2 = .given p2) :
    (decryptEncryptedBlob O (jGetD fields (str "servicesEncrypted") .null)
        (some p0) .null source = .error .invalidTag →
     decryptEncryptedBlob O (jGetD fields (str "servicesEncrypted") .null)
        (some p1) .null source = .error .invalidTag →
     decryptEncryptedBlob O (jGetD fields (str "servicesEncrypted") .null)
        (some p2) .null source = .error .invalidTag →
       decryptBackupIfNeeded O env none (.obj fields) source
         = .error (.corrupted source (str "Mot de passe invalide pour le backup 2FAS"))
       ∧ (∀ env2 : PromptEnv, env2.isatty = true →
           (∀ k, k < MAX_PASSWORD_ATTEMPTS → env2.answer k = env.answer k) →
           decryptBackupIfNeeded O env2 none (.obj fields) source
             = decryptBackupIfNeeded O env none (.obj fields) source))
    ∧ (∀ pt payload,
       decryptEncryptedBlob O (jGetD fields (str "servicesEncrypted") .null)
          (some p0) .null source = .error .invalidTag →
       decryptEncryptedBlob O (jGetD fields (str "servicesEncrypted") .null)
          (some p1) .null source = .error .invalidTag →
       decryptEncryptedBlob O (jGetD fields (str "servicesEncrypted") .null)
          (some p2) .null source = .ok pt →
       O.jsonParse pt = some payload →
       jTruthy (jGetD fields (str "reference") .null) = false →
       ∃ d, decryptBackupIfNeeded O env none (.obj fields) source
              = .ok (d, some p2)) := by
  constructor
  · intro h0 h1 h2
    have hrun : decryptBackupIfNeeded O env none (.obj fields) source
        = .error (.corrupted source (str "Mot de passe invalide pour le backup 2FAS")) := by
      rw [decryptBackupIfNeeded_entry O env fields source p0 henc hkey htty ha0]
      rw [decryptLoop_fail_step O env source fields _ _ none p0 p1 0 h0
        (by simp [MAX_PASSWORD_ATTEMPTS]) htty ha1]
      rw [decryptLoop_fail_step O env source fields _ _ none p1 p2 1 h1
        (by simp [MAX_PASSWORD_ATTEMPTS]) htty ha2]
      exact decryptLoop_fail_last O env source fields _ _ none p2 2 h2
        (by simp [MAX_PASSWORD_ATTEMPTS])
    refine ⟨hrun, ?_⟩
    intro env2 htty2 hag
    rw [decryptBackupIfNeeded_entry O env fields source p0 henc hkey htty ha0]
    rw [decryptBackupIfNeeded_entry O env2 fields source p0 henc hkey htty2
      (by rw [hag 0 (by simp [MAX_PASSWORD_ATTEMPTS]), ha0])]
    exact decryptLoop_env_agree O source fields _ _ _ none MAX_PASSWORD_ATTEMPTS 0
      (some p0) env2 env (by omega) (by rw [htty, htty2]) hag
  · intro pt payload h0 h1 h2 hj href
    refine ⟨.obj (jDel (jSet fields (str "services") payload) (str "servicesEncrypted")), ?_⟩
    rw [decryptBackupIfNeeded_entry O env fields source p0 henc hkey htty ha0]
    rw [decryptLoop_fail_step O env source fields _ _ none p0 p1 0 h0
      (by simp [MAX_PASSWORD_ATTEMPTS]) htty ha1]
    rw [decryptLoop_fail_step O env source fields _ _ none p1 p2 1 h1
      (by simp [MAX_PASSWORD_ATTEMPTS]) htty ha2]
    exact decryptLoop_success O env source fields _ _ none p2 2 pt payload h2 hj href

end TwoFas

namespace TwoFas

def c3Fields : List (Str × JVal) := [(str "servicesEncrypted", .str (str "AAAA:AAAA:AAAA"))]

def c3Env : PromptEnv :=
  { isatty := true
    answer := fun k => if k = 0 then .given (str "a")
               else if k = 1 then .given (str "b") else .given (str "c") }

def c3FailOracle : CryptoOracle :=
  { pbkdf2Sha256 := fun _ _ => []
    aesgcmDecrypt := fun _ _ _ => .invalidTag
    jsonParse := fun _ => none }

def c3ThirdOracle : CryptoOracle :=
  { pbkdf2Sha256 := fun p _ => if p = str "c" then [1] else [0]
    aesgcmDecrypt := fun k _ _ => if k = [1] then .ok [91, 93] else .invalidTag
    jsonParse := fun s => if s = str "[]" then some (.arr []) else none }

/-- Witness for `C3_password_retry_bound`: a concrete run where three wrong
passwords end in the corruption error (independently of any fourth
answer), and a run where the third password succeeds. -/
theorem C3_password_retry_bound_witness :
    (decryptBackupIfNeeded c3FailOracle c3Env none (.obj c3Fields) (str "f")
      = .error (.corrupted (str "f") (str "Mot de passe invalide pour le backup 2FAS")))
    ∧ (decryptBackupIfNeeded c3FailOracle
        { isatty := true, answer := fun k => if k < 3 then c3Env.answer k else .cancelled }
        none (.obj c3Fields) (str "f")
      = decryptBackupIfNeeded c3FailOracle c3Env none (.obj c3Fields) (str "f"))
    ∧ (∃ d, decryptBackupIfNeeded c3ThirdOracle c3Env none (.obj c3Fields) (str "f")
        = .ok (d, some (str "c"))) :=
  ⟨((C3_password_retry_bound c3FailOracle c3Env c3Fields (str "f")
      (str "a") (str "b") (str "c") rfl rfl rfl rfl rfl rfl).1 rfl rfl rfl).1,
   ((C3_password_retry_bound c3FailOracle c3Env c3Fields (str "f")
      (str "a") (str "b") (str "c") rfl rfl rfl rfl rfl rfl).1 rfl rfl rfl).2
      { isatty := true, answer := fun k => if k < 3 then c3Env.answer k else .cancelled }
      rfl (by decide),
   (C3_password_retry_bound c3ThirdOracle c3Env c3Fields (str "f")
      (str "a") (str "b") (str "c") rfl rfl rfl rfl rfl rfl).2
      (str "[]") (.arr []) (by rfl) (by rfl) (by rfl) (by rfl) (by rfl)⟩

end TwoFas

namespace TwoFas

/-- C4: during decryption an AEAD tag mismatch is the only failure treated
as a wrong password (re-prompting in password mode, a key error in
embedded-key mode); every other defect (wrong `ciphertext:salt:iv` segment
count, invalid base64 in a segment, empty ciphertext or IV after decoding,
bad embedded-key length, non-UTF-8 or non-JSON plaintext) is an immediate
corruption error that consults no further prompt. -/
theorem C4_tag_mismatch_only_retry (O : CryptoOracle) (env : PromptEnv)
    (fields : List (Str × JVal)) (source : Str) (p0 : Str)
    (henc : isEncryptedBackup (.obj fields) = true)
    (htty : env.isatty = true)
    (ha0 : env.answer 0 = .given p0) :
    (∀ m, pyOrJ (jGetD fields (str "keyEncoded") .null)
            (jGetD fields (str "key") .null) = .null →
      decryptEncryptedBlob O (jGetD fields (str "servicesEncrypted") .null)
          (some p0) .null source = .error (.corrupted source m) →
      ∀ env2 : PromptEnv, env2.isatty = true → env2.answer 0 = .given p0 →
        decryptBackupIfNeeded O env2 none (.obj fields) source
          = .error (.corrupted source m))
    ∧ (∀ ks, pyOrJ (jGetD fields (str "keyEncoded") .null)
            (jGetD fields (str "key") .null) = .str ks →
        (∀ m, decryptEncryptedBlob O (jGetD fields (str "servicesEncrypted") .null)
            none (.str ks) source = .error (.corrupted source m) →
          ∀ env2 : PromptEnv, decryptBackupIfNeeded O env2 none (.obj fields) source
            = .error (.corrupted source m))
        ∧ (decryptEncryptedBlob O (jGetD fields (str "servicesEncrypted") .null)
            none (.str ks) source = .error .invalidTag →
          ∀ env2 : PromptEnv, decryptBackupIfNeeded O env2 none (.obj fields) source
            = .error (.corrupted source
                (str "Cle de dechiffrement invalide ou donnees corrompues"))))
    ∧ (∀ pt, pyOrJ (jGetD fields (str "keyEncoded") .null)
            (jGetD fields (str "key") .null) = .null →
        decryptEncryptedBlob O (jGetD fields (str "servicesEncrypted") .null)
            (some p0) .null source = .ok pt →
        O.jsonParse pt = none →
        ∀ env2 : PromptEnv, env2.isatty = true → env2.answer 0 = .given p0 →
          decryptBackupIfNeeded O env2 none (.obj fields) source
            = .error (.corrupted source
                (str "Donnees JSON invalides apres dechiffrement")))
    ∧ (∀ p1 pt payload, pyOrJ (jGetD fields (str "keyEncoded") .null)
            (jGetD fields (str "key") .null) = .null →
        env.answer 1 = .given p1 →
        decryptEncryptedBlob O (jGetD fields (str "servicesEncrypted") .null)
            (some p0) .null source = .error .invalidTag →
        decryptEncryptedBlob O (jGetD fields (str "servicesEncrypted") .null)
            (some p1) .null source = .ok pt →
        O.jsonParse pt = some payload →
        jTruthy (jGetD fields (str "reference") .null) = false →
        ∃ d, decryptBackupIfNeeded O env none (.obj fields) source = .ok (d, some p1))
    ∧ (∀ s, (splitAll ':' (pyStrip s)).length ≠ 3 →
        splitEncryptedBlob (.str s) source
          = .error (.corrupted source (str "Structure de champ chiffre invalide")))
    ∧ (∀ s q0 q1 q2, splitAll ':' (pyStrip s) = [q0, q1, q2] →
        (b64decodeStrict q0 = none ∨ b64decodeStrict q1 = none
          ∨ b64decodeStrict q2 = none) →
        splitEncryptedBlob (.str s) source
          = .error (.corrupted source (str "Encodage base64 invalide")))
    ∧ (∀ s q0 q1 q2 db salt iv, splitAll ':' (pyStrip s) = [q0, q1, q2] →
        b64decodeStrict q0 = some db → b64decodeStrict q1 = some salt →
        b64decodeStrict q2 = some iv →
        (db = [] ∨ iv = []) →
        splitEncryptedBlob (.str s) source
          = .error (.corrupted source (str "Donnees ou IV manquants")))
    ∧ (∀ ks kb salt p, ks ≠ [] → b64decodeStrict ks = some kb →
        ¬(kb.length = 16 ∨ kb.length = 24 ∨ kb.length = 32) →
        resolveKey O p (.str ks) salt source
          = .error (.corrupted source (str "Longueur de cle AES inattendue")))
    ∧ (∀ blob password keyE db salt iv key pt,
        splitEncryptedBlob blob source = .ok (db, salt, iv) →
        resolveKey O password keyE salt source = .ok key →
        O.aesgcmDecrypt key iv db = .ok pt →
        utf8DecodeStrict pt = none →
        decryptEncryptedBlob O blob password keyE source
          = .error (.corrupted source (str "Echec du dechiffrement"))) := by
  refine ⟨?_, ?_, ?_, ?_, ?_, ?_, ?_, ?_, ?_⟩
  · intro m hkey hd env2 htty2 ha02
    rw [decryptBackupIfNeeded_entry O env2 fields source p0 henc hkey htty2 ha02]
    rw [decryptLoop.eq_def]
    simp [hd]
  · intro ks hkeys
    constructor
    · intro m hd env2
      simp [decryptBackupIfNeeded, henc, hkeys, jIsNull, decryptLoop.eq_def, hd]
    · intro hd env2
      simp [decryptBackupIfNeeded, henc, hkeys, jIsNull, decryptLoop.eq_def, hd]
  · intro pt hkey hd hj env2 htty2 ha02
    rw [decryptBackupIfNeeded_entry O env2 fields source p0 henc hkey htty2 ha02]
    rw [decryptLoop.eq_def]
    simp [hd, hj]
  · intro p1 pt payload hkey ha1 hd0 hd1 hj href
    refine ⟨.obj (jDel (jSet fields (str "services") payload) (str "servicesEncrypted")), ?_⟩
    rw [decryptBackupIfNeeded_entry O env fields source p0 henc hkey htty ha0]
    rw [decryptLoop_fail_step O env source fields _ _ none p0 p1 0 hd0
      (by simp [MAX_PASSWORD_ATTEMPTS]) htty ha1]
    exact decryptLoop_success O env source fields _ _ none p1 1 pt payload hd1 hj href
  · intro s hlen
    unfold splitEncryptedBlob
    rcases hp : splitAll ':' (pyStrip s) with _ | ⟨a, _ | ⟨b, _ | ⟨c, _ | ⟨d, t⟩⟩⟩⟩ <;>
      simp only [hp] <;>
      first
        | rfl
        | exact absurd (by rw [hp]; rfl) hlen
  · intro s q0 q1 q2 hsp hb
    unfold splitEncryptedBlob
    simp only [hsp]
    cases hd0 : b64decodeStrict q0 <;> cases hd1 : b64decodeStrict q1 <;>
      cases hd2 : b64decodeStrict q2 <;> simp_all
  · intro s q0 q1 q2 db salt iv hsp hd0 hd1 hd2 hemp
    unfold splitEncryptedBlob
    simp only [hsp, hd0, hd1, hd2]
    rcases hemp with h | h <;> simp [h]
  · intro ks kb salt p hk hd hlen
    simp [resolveKey, jTruthy, hk, hd]
    omega
  · intro blob password keyE db salt iv key pt hsp hr haead hutf
    unfold decryptEncryptedBlob
    simp [hsp, hr, haead, hutf]

end TwoFas

namespace TwoFas

def c4Env : PromptEnv :=
  { isatty := true
    answer := fun k => if k = 0 then .given (str "a")
               else if k = 1 then .given (str "b") else .given (str "c") }

def c4EnvNoTty : PromptEnv := { isatty := false, answer := fun _ => .given (str "a") }

def c4OracleTag : CryptoOracle :=
  { pbkdf2Sha256 := fun _ _ => [0]
    aesgcmDecrypt := fun _ _ _ => .invalidTag
    jsonParse := fun _ => none }

def c4OracleBadJson : CryptoOracle :=
  { pbkdf2Sha256 := fun _ _ => [0]
    aesgcmDecrypt := fun _ _ _ => .ok [123]
    jsonParse := fun _ => none }

def c4OracleSecond : CryptoOracle :=
  { pbkdf2Sha256 := fun p _ => if p = str "b" then [1] else [0]
    aesgcmDecrypt := fun k _ _ => if k = [1] then .ok [91, 93] else .invalidTag
    jsonParse := fun s => if s = str "[]" then some (.arr []) else none }

def c4OracleBadUtf : CryptoOracle :=
  { pbkdf2Sha256 := fun _ _ => [0]
    aesgcmDecrypt := fun _ _ _ => .ok [255]
    jsonParse := fun _ => none }

def c4FieldsBadBlob : List (Str × JVal) :=
  [(str "servicesEncrypted", .str (str "AAAA:AAAA"))]

def c4FieldsShortKey : List (Str × JVal) :=
  [(str "servicesEncrypted", .str (str "AAAA:AAAA:AAAA")),
   (str "keyEncoded", .str (str "AAAA"))]

def c4FieldsGoodKey : List (Str × JVal) :=
  [(str "servicesEncrypted", .str (str "AAAA:AAAA:AAAA")),
   (str "keyEncoded", .str (str "AAAAAAAAAAAAAAAAAAAAAA=="))]

def c4FieldsPlainEnc : List (Str × JVal) :=
  [(str "servicesEncrypted", .str (str "AAAA:AAAA:AAAA"))]

/-- A blob whose segments carry the paddings Python accepts: a 0 mod 4 run
followed by `=`, a bare run, and a 0 mod 4 run followed by `==`. -/
def c4FieldsPadBlob : List (Str × JVal) :=
  [(str "servicesEncrypted", .str (str "AAAA=:AAAA:QUJD=="))]

/-- Witness for `C4_tag_mismatch_only_retry` at concrete scenarios. -/
theorem C4_tag_mismatch_only_retry_witness :
    (decryptBackupIfNeeded c4OracleTag c4Env none (.obj c4FieldsBadBlob) (str "f")
      = .error (.corrupted (str "f") (str "Structure de champ chiffre invalide")))
    ∧ (decryptBackupIfNeeded c4OracleTag c4EnvNoTty none (.obj c4FieldsShortKey) (str "f")
      = .error (.corrupted (str "f") (str "Longueur de cle AES inattendue")))
    ∧ (decryptBackupIfNeeded c4OracleTag c4EnvNoTty none (.obj c4FieldsGoodKey) (str "f")
      = .error (.corrupted (str "f")
          (str "Cle de dechiffrement invalide ou donnees corrompues")))
    ∧ (decryptBackupIfNeeded c4OracleBadJson c4Env none (.obj c4FieldsPlainEnc) (str "f")
      = .error (.corrupted (str "f") (str "Donnees JSON invalides apres dechiffrement")))
    ∧ (∃ d, decryptBackupIfNeeded c4OracleSecond c4Env none (.obj c4FieldsPlainEnc) (str "f")
        = .ok (d, some (str "b")))
    ∧ (∃ d, decryptBackupIfNeeded c4OracleSecond c4Env none (.obj c4FieldsPadBlob) (str "f")
        = .ok (d, some (str "b")))
    ∧ (splitEncryptedBlob (.str (str "AAAA:AAAA")) (str "f")
      = .error (.corrupted (str "f") (str "Structure de champ chiffre invalide")))
    ∧ (splitEncryptedBlob (.str (str "A!AA:AAAA:AAAA")) (str "f")
      = .error (.corrupted (str "f") (str "Encodage base64 invalide")))
    ∧ (splitEncryptedBlob (.str (str ":AAAA:AAAA")) (str "f")
      = .error (.corrupted (str "f") (str "Donnees ou IV manquants")))
    ∧ (resolveKey c4OracleTag none (.str (str "AAAA")) [] (str "f")
      = .error (.corrupted (str "f") (str "Longueur de cle AES inattendue")))
    ∧ (decryptEncryptedBlob c4OracleBadUtf (.str (str "AAAA:AAAA:AAAA"))
        (some (str "x")) .null (str "f")
      = .error (.corrupted (str "f") (str "Echec du dechiffrement"))) :=
  ⟨(C4_tag_mismatch_only_retry c4OracleTag c4Env c4FieldsBadBlob (str "f") (str "a")
      rfl rfl rfl).1 (str "Structure de champ chiffre invalide") rfl (by rfl)
      c4Env rfl rfl,
   ((C4_tag_mismatch_only_retry c4OracleTag c4Env c4FieldsShortKey (str "f") (str "a")
      rfl rfl rfl).2.1 (str "AAAA") rfl).1 (str "Longueur de cle AES inattendue")
      (by rfl) c4EnvNoTty,
   ((C4_tag_mismatch_only_retry c4OracleTag c4Env c4FieldsGoodKey (str "f") (str "a")
      rfl rfl rfl).2.1 (str "AAAAAAAAAAAAAAAAAAAAAA==") rfl).2 (by rfl) c4EnvNoTty,
   (C4_tag_mismatch_only_retry c4OracleBadJson c4Env c4FieldsPlainEnc (str "f") (str "a")
      rfl rfl rfl).2.2.1 (str "\x7b") rfl (by rfl) rfl c4Env rfl rfl,
   (C4_tag_mismatch_only_retry c4OracleSecond c4Env c4FieldsPlainEnc (str "f") (str "a")
      rfl rfl rfl).2.2.2.1 (str "b") (str "[]") (.arr []) rfl rfl (by rfl) (by rfl) rfl rfl,
   (C4_tag_mismatch_only_retry c4OracleSecond c4Env c4FieldsPadBlob (str "f") (str "a")
      rfl rfl rfl).2.2.2.1 (str "b") (str "[]") (.arr []) rfl rfl (by rfl) (by rfl) rfl rfl,
   (C4_tag_mismatch_only_retry c4OracleTag c4Env c4FieldsBadBlob (str "f") (str "a")
      rfl rfl rfl).2.2.2.2.1 (str "AAAA:AAAA") (by decide),
   (C4_tag_mismatch_only_retry c4OracleTag c4Env c4FieldsBadBlob (str "f") (str "a")
      rfl rfl rfl).2.2.2.2.2.1 (str "A!AA:AAAA:AAAA") (str "A!AA") (str "AAAA")
      (str "AAAA") (by rfl) (Or.inl (by rfl)),
   (C4_tag_mismatch_only_retry c4OracleTag c4Env c4FieldsBadBlob (str "f") (str "a")
      rfl rfl rfl).2.2.2.2.2.2.1 (str ":AAAA:AAAA") (str "") (str "AAAA") (str "AAAA")
      [] [0,0,0] [0,0,0] (by rfl) (by rfl) (by rfl) (by rfl) (Or.inl rfl),
   (C4_tag_mismatch_only_retry c4OracleTag c4Env c4FieldsBadBlob (str "f") (str "a")
      rfl rfl rfl).2.2.2.2.2.2.2.1 (str "AAAA") [0, 0, 0] [] none (by decide) (by rfl)
      (by decide),
   (C4_tag_mismatch_only_retry c4OracleBadUtf c4Env c4FieldsBadBlob (str "f") (str "a")
      rfl rfl rfl).2.2.2.2.2.2.2.2 (.str (str "AAAA:AAAA:AAAA")) (some (str "x")) .null
      [0, 0, 0] [0, 0, 0] [0, 0, 0] [0] [255] (by rfl) (by rfl) (by rfl) (by rfl)⟩

end TwoFas

namespace TwoFas

def c2Oracle : CryptoOracle :=
  { pbkdf2Sha256 := fun p _ => if p = str "pw" then [1] else [0]
    aesgcmDecrypt := fun k _ _ => if k = [1] then .ok [91, 93] else .invalidTag
    jsonParse := fun s => if s = str "[]" then some (.arr []) else none }

def c2Fields : List (Str × JVal) :=
  [(str "services", .arr []), (str "servicesEncrypted", .str (str "AAAA:AAAA:AAAA"))]

def c2Doc : JVal := .obj c2Fields

def c2EnvTty : PromptEnv := { isatty := true, answer := fun _ => .given (str "pw") }

def c2EnvNoTty : PromptEnv := { isatty := false, answer := fun _ => .given (str "pw") }

/-- C2 counterexample: the `BackupProcessorFactory` keeps one
`TwoFASProcessor` instance, whose `_cached_password` is the state threaded
here.  A password prompted for the first container is still cached when
the second `process_backup` call starts, and that second call succeeds on
a non-interactive stdin by reusing it — while the same call with an empty
cache fails for want of a prompt.  The cached password therefore crosses
container boundaries. -/
theorem C2_counterexample :
    processBackupJson c2Oracle c2EnvTty none (some c2Doc) (str "f1")
      = (.ok [], some (str "pw"))
    ∧ processBackupJson c2Oracle c2EnvNoTty (some (str "pw")) (some c2Doc) (str "f2")
      = (.ok [], some (str "pw"))
    ∧ processBackupJson c2Oracle c2EnvNoTty none (some c2Doc) (str "f2")
      = (.error (.corrupted (str "f2")
          (str "Mot de passe requis pour ce backup chiffre (execution interactive uniquement).")),
         none) := by
  have hd : decryptEncryptedBlob c2Oracle (jGetD c2Fields (str "servicesEncrypted") .null)
      (some (str "pw")) .null (str "f1") = .ok (str "[]") := by rfl
  have hd2 : decryptEncryptedBlob c2Oracle (jGetD c2Fields (str "servicesEncrypted") .null)
      (some (str "pw")) .null (str "f2") = .ok (str "[]") := by rfl
  have h1 : decryptBackupIfNeeded c2Oracle c2EnvTty none c2Doc (str "f1")
      = .ok (.obj (jDel (jSet c2Fields (str "services") (.arr []))
          (str "servicesEncrypted")), some (str "pw")) := by
    rw [show c2Doc = JVal.obj c2Fields from rfl]
    rw [decryptBackupIfNeeded_entry c2Oracle c2EnvTty c2Fields (str "f1") (str "pw")
      rfl rfl rfl rfl]
    exact decryptLoop_success c2Oracle c2EnvTty (str "f1") c2Fields _ _ none (str "pw") 0
      (str "[]") (.arr []) hd rfl rfl
  have h2 : decryptBackupIfNeeded c2Oracle c2EnvNoTty (some (str "pw")) c2Doc (str "f2")
      = .ok (.obj (jDel (jSet c2Fields (str "services") (.arr []))
          (str "servicesEncrypted")), some (str "pw")) := by
    rw [show c2Doc = JVal.obj c2Fields from rfl]
    rw [decryptBackupIfNeeded_cached c2Oracle c2EnvNoTty c2Fields (str "f2") (str "pw")
      rfl rfl]
    exact decryptLoop_success c2Oracle c2EnvNoTty (str "f2") c2Fields _ _
      (some (str "pw")) (str "pw") 0 (str "[]") (.arr []) hd2 rfl rfl
  have h3 : decryptBackupIfNeeded c2Oracle c2EnvNoTty none c2Doc (str "f2")
      = .error (.corrupted (str "f2")
          (str "Mot de passe requis pour ce backup chiffre (execution interactive uniquement).")) := by
    rw [show c2Doc = JVal.obj c2Fields from rfl]
    unfold decryptBackupIfNeeded
    simp [isEncryptedBackup, jGetD, jGet, pyOrJ, jIsNull, promptForPassword, jTruthy]
    rfl
  refine ⟨?_, ?_, ?_⟩
  · simp [processBackupJson, processJsonBackup, h1]
    rfl
  · simp [processBackupJson, processJsonBackup, h2]
    rfl
  · simp [processBackupJson, processJsonBackup, h3]
    rfl

end TwoFas

namespace TwoFas

/-- C2 (corrected): the cached password lives on the processor instance,
which the factory builds once and reuses, so it is scoped to the
processor's lifetime rather than to one `process_backup` call.  For any
backup whose encrypted blob a password `p` decrypts: (1) a first call with
an empty cache, prompted `p`, succeeds and leaves `some p` cached; (2) a
later call on another container that starts from that cached state
succeeds for EVERY prompt environment — the prompt is never consulted and
the password cached for the first container is reused for the second. -/
theorem C2_password_cache_scope
    (O : CryptoOracle) (fields : List (Str × JVal)) (src1 src2 : Str)
    (p pt : Str) (payload : JVal)
    (henc : isEncryptedBackup (.obj fields) = true)
    (hkey : pyOrJ (jGetD fields (str "keyEncoded") .null)
              (jGetD fields (str "key") .null) = .null)
    (hd1 : decryptEncryptedBlob O (jGetD fields (str "servicesEncrypted") .null)
             (some p) .null src1 = .ok pt)
    (hd2 : decryptEncryptedBlob O (jGetD fields (str "servicesEncrypted") .null)
             (some p) .null src2 = .ok pt)
    (hj : O.jsonParse pt = some payload)
    (href : jTruthy (jGetD fields (str "reference") .null) = false) :
    (∀ env : PromptEnv, env.isatty = true → env.answer 0 = .given p →
      decryptBackupIfNeeded O env none (.obj fields) src1
        = .ok (.obj (jDel (jSet fields (str "services") payload)
            (str "servicesEncrypted")), some p))
    ∧ (∀ env2 : PromptEnv,
      decryptBackupIfNeeded O env2 (some p) (.obj fields) src2
        = .ok (.obj (jDel (jSet fields (str "services") payload)
            (str "servicesEncrypted")), some p)) := by
  constructor
  · intro env htty ha0
    rw [decryptBackupIfNeeded_entry O env fields src1 p henc hkey htty ha0]
    exact decryptLoop_success O env src1 fields _ _ none p 0 pt payload hd1 hj href
  · intro env2
    rw [decryptBackupIfNeeded_cached O env2 fields src2 p henc hkey]
    exact decryptLoop_success O env2 src2 fields _ _ (some p) p 0 pt payload hd2 hj href

/-- Witness for C2: concrete oracle and document; the first call prompts
on a tty, the second reuses the cache with no tty at all. -/
theorem C2_password_cache_scope_witness :
    decryptBackupIfNeeded c2Oracle c2EnvTty none (.obj c2Fields) (str "f1")
      = .ok (.obj (jDel (jSet c2Fields (str "services") (.arr []))
          (str "servicesEncrypted")), some (str "pw"))
    ∧ decryptBackupIfNeeded c2Oracle c2EnvNoTty (some (str "pw")) (.obj c2Fields) (str "f2")
      = .ok (.obj (jDel (jSet c2Fields (str "services") (.arr []))
          (str "servicesEncrypted")), some (str "pw")) := by
  have h := C2_password_cache_scope c2Oracle c2Fields (str "f1") (str "f2")
    (str "pw") (str "[]") (.arr []) rfl rfl rfl rfl rfl rfl
  exact ⟨h.1 c2EnvTty rfl rfl, h.2 c2EnvNoTty⟩

end TwoFas

namespace TwoFas

/-- Spec-modelled: a ZIP member that counts as "valid" in the claim's
sense — a `*.json` member whose parsed content passes the sniff. -/
def memberValid (m : ZipMember) : Bool :=
  List.isSuffixOf (str ".json") m.name &&
    (match m.content with
     | some d => isValid2fasFormat d
     | none => false)

/-- Spec-modelled: the entries a member contributes when processed
independently from the cache state `st`: its parsed content is decrypted
and the entries extracted. -/
def memberEntries (O : CryptoOracle) (env : PromptEnv) (path : Str)
    (st : Option Str) (m : ZipMember) : List OTPEntryM :=
  match m.content with
  | some d =>
    match decryptBackupIfNeeded O env st d (path ++ str "!/" ++ m.name) with
    | .ok (d2, _) =>
      match extractEntriesFromData d2 with
      | .ok es => es
      | .error _ => []
    | .error _ => []
  | none => []

/-- Spec-modelled: entries of all valid members, each processed
independently from `st`, concatenated in member-iteration order. -/
def zipEntriesSpec (O : CryptoOracle) (env : PromptEnv) (path : Str)
    (st : Option Str) (members : List ZipMember) : List OTPEntryM :=
  (members.filter memberValid).flatMap (memberEntries O env path st)

/-- A member that does not derail the ZIP loop: if it is a `*.json` member
it parses as JSON, and if it moreover passes the sniff it decrypts cleanly
from every cache state leaving the cache untouched (plain members, and
encrypted members carrying an embedded key) and extracts cleanly. -/
def c6MemberOk (O : CryptoOracle) (env : PromptEnv) (path : Str) (m : ZipMember) : Prop :=
  List.isSuffixOf (str ".json") m.name = true →
    ∃ d, m.content = some d
      ∧ (isValid2fasFormat d = true →
          ∃ d2, (∀ s, decryptBackupIfNeeded O env s d (path ++ str "!/" ++ m.name)
                  = .ok (d2, s))
            ∧ ∃ es, extractEntriesFromData d2 = .ok es)

theorem zipLoop_plain (O : CryptoOracle) (env : PromptEnv) (path : Str) :
    ∀ (members : List ZipMember) (st : Option Str) (found : Bool)
      (acc : List OTPEntryM),
      (∀ m ∈ members, c6MemberOk O env path m) →
      zipLoop O env path members st found acc
        = (.ok (acc ++ zipEntriesSpec O env path st members,
                found || members.any memberValid), st)
  | [], st, found, acc, _ => by
    simp [zipLoop, zipEntriesSpec]
  | m :: rest, st, found, acc, h => by
    have hm := h m (by simp)
    have hrest : ∀ x ∈ rest, c6MemberOk O env path x :=
      fun x hx => h x (by simp [hx])
    by_cases hs : List.isSuffixOf (str ".json") m.name
    · obtain ⟨d, hc, hval⟩ := hm hs
      by_cases hv : isValid2fasFormat d
      · obtain ⟨d2, hdec, es, hex⟩ := hval hv
        rw [zipLoop, if_neg (by simp [hs]), hc]
        simp only [hv, if_true, hdec st, hex]
        rw [zipLoop_plain O env path rest st true (acc ++ es) hrest]
        have hvalid : memberValid m = true := by simp [memberValid, hs, hc, hv]
        have hme : memberEntries O env path st m = es := by
          have hdec2 := hdec st
          rw [List.append_assoc] at hdec2
          simp [memberEntries, hc, hdec2, hex]
        simp [zipEntriesSpec, List.filter_cons, hvalid, hme, List.any_cons]
      · rw [zipLoop, if_neg (by simp [hs]), hc]
        simp only [eq_false_of_ne_true hv, if_false]
        rw [zipLoop_plain O env path rest st found acc hrest]
        have hvalid : memberValid m = false := by
          simp [memberValid, hs, hc, eq_false_of_ne_true hv]
        simp [zipEntriesSpec, List.filter_cons, hvalid, List.any_cons]
    · rw [zipLoop, if_pos (by simp [hs])]
      rw [zipLoop_plain O env path rest st found acc hrest]
      have hvalid : memberValid m = false := by
        simp [memberValid, eq_false_of_ne_true hs]
      simp [zipEntriesSpec, List.filter_cons, hvalid, List.any_cons]

end TwoFas

namespace TwoFas

/-- C6 (corrected): in a ZIP container each `*.json` member is
independently sniffed and processed, entries of the valid members are
concatenated in member-iteration order, with success (possibly empty) iff
some member passed the sniff and an unsupported-format error otherwise —
provided every `*.json` member parses as JSON and every sniffed-valid
member decrypts cleanly from any cache state without touching the cache
(plain members, and encrypted members carrying an embedded key) and
extracts cleanly.  A member whose `json.load` or decryption raises aborts
the whole container regardless of other valid members (see the
counterexample), and members needing an interactively-prompted password
couple members through the instance cache. -/
theorem C6_zip_member_iteration (O : CryptoOracle) (env : PromptEnv)
    (st : Option Str) (path : Str) (members : List ZipMember)
    (h : ∀ m ∈ members, c6MemberOk O env path m) :
    processBackupZip O env st path members
      = ((if members.any memberValid then .ok (zipEntriesSpec O env path st members)
          else .error (.unsupported (str "2FAS") path)), st) := by
  have hl := zipLoop_plain O env path members st false [] h
  rw [processBackupZip, processZipBackup, hl]
  simp only [List.nil_append, Bool.false_or]
  cases hany : members.any memberValid
  · simp [pbWrap]
  · simp

def c6Oracle : CryptoOracle :=
  { pbkdf2Sha256 := fun _ _ => []
    aesgcmDecrypt := fun _ _ _ => .failure
    jsonParse := fun _ => none }

def c6Env : PromptEnv := { isatty := false, answer := fun _ => .cancelled }

def c6GoodDoc : JVal := .obj [(str "services", .arr [])]

def c6Good : ZipMember := { name := str "a.json", content := some c6GoodDoc }

def c6Bad : ZipMember := { name := str "b.json", content := none }

/-- C6 counterexample: the member `b.json` fails to parse as JSON; the
container holds a member `a.json` that passes the sniff — alone it
succeeds with an empty entry list — yet the container with both members
fails with a corruption error instead of succeeding, so member processing
is not independent and success is not equivalent to some member passing
the sniff. -/
theorem C6_counterexample :
    isValid2fasFormat c6GoodDoc = true
    ∧ processBackupZip c6Oracle c6Env none (str "z") [c6Good]
        = (.ok [], none)
    ∧ processBackupZip c6Oracle c6Env none (str "z") [c6Good, c6Bad]
        = (.error (.corrupted (str "z") (str "exception")), none) :=
  ⟨rfl, rfl, rfl⟩

def c6Skip : ZipMember := { name := str "r.txt", content := some c6GoodDoc }

/-- Oracle for the witness: AES-GCM succeeds for the 16-byte embedded key
and the plaintext is the JSON text `[]`. -/
def c6wOracle : CryptoOracle :=
  { pbkdf2Sha256 := fun _ _ => []
    aesgcmDecrypt := fun k _ _ => if k.length = 16 then .ok [91, 93] else .failure
    jsonParse := fun s => if s = str "[]" then some (.arr []) else none }

def c6EncFields : List (Str × JVal) :=
  [(str "services", .arr []),
   (str "servicesEncrypted", .str (str "AAAA:AAAA:AAAA")),
   (str "keyEncoded", .str (str "AAAAAAAAAAAAAAAAAAAAAA=="))]

def c6EncDoc : JVal := .obj c6EncFields

def c6Enc : ZipMember := { name := str "e.json", content := some c6EncDoc }

/-- Like `decryptLoop_success`, for the embedded-key mode: the key is
resolved from the blob, so success neither consults the prompt nor
updates the cached password. -/
theorem decryptLoop_keyed_success (O : CryptoOracle) (env : PromptEnv) (source : Str)
    (fields : List (Str × JVal)) (sEnc rEnc keyE : JVal) (cached0 password : Option Str)
    (a : Nat) (pt : Str) (payload : JVal)
    (hkey : jIsNull keyE = false)
    (hd : decryptEncryptedBlob O sEnc password keyE source = .ok pt)
    (hj : O.jsonParse pt = some payload)
    (href : jTruthy rEnc = false) :
    decryptLoop O env source fields sEnc rEnc keyE cached0 password a
      = .ok (.obj (jDel (jSet fields (str "services") payload) (str "servicesEncrypted")),
             cached0) := by
  rw [decryptLoop.eq_def]
  simp [hd, hj, href, hkey]

/-- `_decrypt_backup_if_needed` in embedded-key mode never prompts and
starts the loop from the current cache, whatever it holds. -/
theorem decryptBackupIfNeeded_keyed (O : CryptoOracle) (env : PromptEnv)
    (fields : List (Str × JVal)) (source : Str) (ks : Str) (st : Option Str)
    (henc : isEncryptedBackup (.obj fields) = true)
    (hkey : pyOrJ (jGetD fields (str "keyEncoded") .null)
              (jGetD fields (str "key") .null) = .str ks) :
    decryptBackupIfNeeded O env st (.obj fields) source
      = decryptLoop O env source fields (jGetD fields (str "servicesEncrypted") .null)
          (jGetD fields (str "reference") .null) (.str ks) st st 0 := by
  unfold decryptBackupIfNeeded
  simp [henc, hkey, jIsNull]

/-- Witness for C6: an archive holding a plain member, a skipped `.txt`
member and an encrypted member carrying an embedded key succeeds on a
non-interactive environment with the concatenated entries and the cache
untouched; an archive with no valid member fails as unsupported. -/
theorem C6_zip_member_iteration_witness :
    processBackupZip c6wOracle c6Env none (str "z") [c6Good, c6Skip, c6Enc]
      = (.ok (zipEntriesSpec c6wOracle c6Env (str "z") none [c6Good, c6Skip, c6Enc]),
         none)
    ∧ processBackupZip c6wOracle c6Env none (str "z") [c6Skip]
      = (.error (.unsupported (str "2FAS") (str "z")), none) := by
  have hdecEnc : ∀ s, decryptBackupIfNeeded c6wOracle c6Env s c6EncDoc
      (str "z" ++ str "!/" ++ str "e.json")
      = .ok (.obj (jDel (jSet c6EncFields (str "services") (.arr []))
          (str "servicesEncrypted")), s) := by
    intro s
    rw [show c6EncDoc = JVal.obj c6EncFields from rfl]
    rw [decryptBackupIfNeeded_keyed c6wOracle c6Env c6EncFields _
      (str "AAAAAAAAAAAAAAAAAAAAAA==") s rfl rfl]
    exact decryptLoop_keyed_success c6wOracle c6Env _ c6EncFields _ _ _ s s 0
      (str "[]") (.arr []) rfl (by rfl) rfl rfl
  have hok : ∀ m ∈ [c6Good, c6Skip, c6Enc], c6MemberOk c6wOracle c6Env (str "z") m := by
    intro m hm
    simp only [List.mem_cons, List.not_mem_nil, or_false] at hm
    rcases hm with rfl | rfl | rfl
    · intro _
      exact ⟨c6GoodDoc, rfl, fun _ => ⟨c6GoodDoc, fun s => rfl, [], rfl⟩⟩
    · intro hsuf
      exact absurd hsuf (by decide)
    · intro _
      exact ⟨c6EncDoc, rfl, fun _ =>
        ⟨.obj (jDel (jSet c6EncFields (str "services") (.arr []))
          (str "servicesEncrypted")), hdecEnc, [], rfl⟩⟩
  constructor
  · rw [C6_zip_member_iteration c6wOracle c6Env none (str "z") [c6Good, c6Skip, c6Enc] hok]
    rw [if_pos (by rfl)]
  · rw [C6_zip_member_iteration c6wOracle c6Env none (str "z") [c6Skip]
      (by intro m hm
          simp only [List.mem_cons, List.not_mem_nil, or_false] at hm
          subst hm
          intro hsuf
          exact absurd hsuf (by decide))]
    rw [if_neg (by decide)]

end TwoFas

namespace TwoFas

/- ### Character-level facts about `quote` output and the splitters -/

theorem hexUpper_safe : ∀ n < 16, isAlwaysSafe (hexUpperChar n) = true := by decide

theorem quote_chars {c : Char} {s : Str} (h : c ∈ pyQuote s) :
    isAlwaysSafe c = true ∨ c = '/' ∨ c = '%' := by
  rw [pyQuote, List.mem_flatMap] at h
  obtain ⟨x, _, hx⟩ := h
  rw [quoteChar] at hx
  by_cases hs : (isAlwaysSafe x || x = '/') = true
  · rw [if_pos hs] at hx
    simp at hx
    subst hx
    rcases Bool.or_eq_true_iff.mp hs with h1 | h1
    · exact Or.inl h1
    · exact Or.inr (Or.inl (by simpa using h1))
  · rw [if_neg hs] at hx
    rw [List.mem_flatMap] at hx
    obtain ⟨b, hbm, hb⟩ := hx
    have hb256 : b < 256 := utf8Enc_lt x b hbm
    rw [pctByte] at hb
    simp only [List.mem_cons, List.not_mem_nil, or_false] at hb
    rcases hb with hb | hb | hb
    · exact Or.inr (Or.inr hb)
    · subst hb
      exact Or.inl (hexUpper_safe (b / 16) (by omega))
    · subst hb
      exact Or.inl (hexUpper_safe (b % 16) (by omega))

theorem quote_not_mem {c : Char} (h1 : isAlwaysSafe c = false) (h2 : c ≠ '/')
    (h3 : c ≠ '%') (s : Str) : c ∉ pyQuote s := by
  intro hmem
  rcases quote_chars hmem with h | h | h
  · rw [h1] at h
    cases h
  · exact h2 h
  · exact h3 h

theorem quoteChar_ne_nil (c : Char) : quoteChar c ≠ [] := by
  rw [quoteChar]
  by_cases hs : (isAlwaysSafe c || c = '/') = true
  · rw [if_pos hs]
    simp
  · rw [if_neg hs]
    obtain ⟨b, t2, he⟩ := utf8Enc_shape c
    rw [he]
    simp [pctByte]

theorem quote_ne_nil {s : Str} (h : s ≠ []) : pyQuote s ≠ [] := by
  match s with
  | [] => exact absurd rfl h
  | c :: t =>
    rw [show pyQuote (c :: t) = quoteChar c ++ pyQuote t from rfl]
    simp [quoteChar_ne_nil c]

theorem quoteChar_head_ne_slash {c : Char} (hc : c ≠ '/') :
    ∃ x xs, quoteChar c = x :: xs ∧ x ≠ '/' := by
  rw [quoteChar]
  by_cases hs : (isAlwaysSafe c || c = '/') = true
  · rw [if_pos hs]
    exact ⟨c, [], rfl, hc⟩
  · rw [if_neg hs]
    obtain ⟨b, t2, he⟩ := utf8Enc_shape c
    rw [he]
    refine ⟨'%', _, rfl, by decide⟩

theorem replace_not_mem {a : Char} (b : Char) {s : Str} (h : a ∉ s) :
    replaceChar a b s = s := by
  rw [replaceChar]
  induction s with
  | nil => rfl
  | cons c t ih =>
    simp only [List.mem_cons, not_or] at h
    simp only [List.map_cons]
    rw [if_neg (fun he => h.1 he.symm), ih h.2]

theorem split1_not_mem {c : Char} {s : Str} (h : c ∉ s) :
    split1 c s = (s, none) := by
  induction s with
  | nil => rfl
  | cons x t ih =>
    simp only [List.mem_cons, not_or] at h
    rw [split1, if_neg (fun he => h.1 he.symm), ih h.2]

theorem split1_append {c : Char} {xs : Str} (ys : Str) (h : c ∉ xs) :
    split1 c (xs ++ c :: ys) = (xs, some ys) := by
  induction xs with
  | nil => simp [split1]
  | cons x t ih =>
    simp only [List.mem_cons, not_or] at h
    simp only [List.cons_append]
    rw [split1, if_neg (fun he => h.1 he.symm), ih h.2]

theorem splitAll_single {sep : Char} {s : Str} (h : sep ∉ s) :
    splitAll sep s = [s] := by
  induction s with
  | nil => rfl
  | cons c t ih =>
    simp only [List.mem_cons, not_or] at h
    rw [splitAll, if_neg (fun he => h.1 he.symm), ih h.2]

theorem splitAll_cons_sep {sep : Char} {xs : Str} (ys : Str) (h : sep ∉ xs) :
    splitAll sep (xs ++ sep :: ys) = xs :: splitAll sep ys := by
  induction xs with
  | nil => simp [splitAll]
  | cons x t ih =>
    simp only [List.mem_cons, not_or] at h
    simp only [List.cons_append]
    rw [splitAll, if_neg (fun he => h.1 he.symm), ih h.2]

theorem takeWhile_append_stop {p : Char → Bool} {xs : Str} (y : Char) (ys : Str)
    (hxs : ∀ c ∈ xs, p c = true) (hy : p y = false) :
    (xs ++ y :: ys).takeWhile p = xs ∧ (xs ++ y :: ys).dropWhile p = y :: ys := by
  induction xs with
  | nil => simp [List.takeWhile_cons, List.dropWhile_cons, hy]
  | cons x t ih =>
    have hx : p x = true := hxs x (by simp)
    have ht : ∀ c ∈ t, p c = true := fun c hc => hxs c (by simp [hc])
    obtain ⟨ih1, ih2⟩ := ih ht
    simp only [List.cons_append, List.takeWhile_cons, List.dropWhile_cons, hx]
    simp [ih1, ih2]

theorem dropWhile_all_false {p : Char → Bool} {s : Str}
    (h : ∀ c ∈ s, p c = false) : s.dropWhile p = s := by
  cases s with
  | nil => rfl
  | cons c t => simp [List.dropWhile_cons, h c (by simp)]

theorem quote_dropSlash (s : Str) :
    (pyQuote s).dropWhile (fun c => c = '/')
      = pyQuote (s.dropWhile (fun c => c = '/')) := by
  induction s with
  | nil => rfl
  | cons c t ih =>
    by_cases hc : c = '/'
    · subst hc
      have hq : pyQuote ('/' :: t) = '/' :: pyQuote t := rfl
      rw [hq]
      simp only [List.dropWhile_cons]
      simpa using ih
    · obtain ⟨x, xs, hqc, hx⟩ := quoteChar_head_ne_slash hc
      have hq : pyQuote (c :: t) = quoteChar c ++ pyQuote t := rfl
      rw [hq, hqc]
      simp only [List.cons_append, List.dropWhile_cons]
      rw [if_neg (by simpa using hx), if_neg (by simpa using hc), hq, hqc]
      simp

end TwoFas

namespace TwoFas

/- ### Decimal numeral round trip -/

theorem digit_facts : ∀ n < 10, isDecDigit (digitChar n) = true ∧ decVal (digitChar n) = n
    ∧ isPySpace (digitChar n) = false ∧ digitChar n ≠ '_' := by decide

theorem natToRevAux_mem : ∀ (fuel n : Nat), ∀ c ∈ natToRevAux fuel n,
    isDecDigit c = true ∧ isPySpace c = false ∧ c ≠ '_' := by
  intro fuel
  induction fuel with
  | zero => intro n c hc; cases hc
  | succ f ih =>
    intro n c hc
    rw [natToRevAux] at hc
    by_cases hn : n < 10
    · rw [if_pos hn] at hc
      simp only [List.mem_singleton] at hc
      subst hc
      have hd := digit_facts n (by omega)
      exact ⟨hd.1, hd.2.2.1, hd.2.2.2⟩
    · rw [if_neg hn] at hc
      rcases List.mem_cons.mp hc with hc | hc
      · subst hc
        have hd := digit_facts (n % 10) (by omega)
        exact ⟨hd.1, hd.2.2.1, hd.2.2.2⟩
      · exact ih (n / 10) c hc

theorem natToRevAux_ne_nil (fuel n : Nat) (h : n < fuel) : natToRevAux fuel n ≠ [] := by
  match fuel with
  | f + 1 =>
    rw [natToRevAux]
    by_cases hn : n < 10
    · rw [if_pos hn]; simp
    · rw [if_neg hn]; simp

theorem natToRevAux_val : ∀ (fuel n : Nat), n < fuel →
    (natToRevAux fuel n).foldr (fun c a => a * 10 + decVal c) 0 = n := by
  intro fuel
  induction fuel with
  | zero => omega
  | succ f ih =>
    intro n hn
    rw [natToRevAux]
    by_cases h10 : n < 10
    · rw [if_pos h10]
      simp only [List.foldr_cons, List.foldr_nil]
      have hd := digit_facts n (by omega)
      rw [hd.2.1]
      omega
    · rw [if_neg h10]
      simp only [List.foldr_cons]
      rw [ih (n / 10) (by omega)]
      have hd := digit_facts (n % 10) (by omega)
      rw [hd.2.1]
      omega

theorem natRepr_facts (n : Nat) : natRepr n ≠ []
    ∧ (∀ c ∈ natRepr n, isDecDigit c = true ∧ isPySpace c = false ∧ c ≠ '_') := by
  constructor
  · rw [natRepr]
    simp only [ne_eq, List.reverse_eq_nil_iff]
    exact natToRevAux_ne_nil (n + 1) n (by omega)
  · intro c hc
    rw [natRepr, List.mem_reverse] at hc
    exact natToRevAux_mem (n + 1) n c hc

theorem decValue_natRepr (n : Nat) : decValue (natRepr n) = n := by
  rw [decValue]
  have hf : (natRepr n).filter (fun c => c ≠ '_') = natRepr n := by
    rw [List.filter_eq_self]
    intro c hc
    simp [((natRepr_facts n).2 c hc).2.2]
  rw [hf, natRepr, List.foldl_reverse]
  exact natToRevAux_val (n + 1) n (by omega)

theorem digitsUnder_all_digits : ∀ s : Str, s ≠ [] → (∀ c ∈ s, isDecDigit c = true) →
    digitsUnder s = true
  | [], h, _ => absurd rfl h
  | [c], _, hd => by simp [digitsUnder, hd c (by simp)]
  | c1 :: c2 :: r, _, hd => by
    have h2 : isDecDigit c2 = true := hd c2 (by simp)
    have hne : c2 ≠ '_' := by
      rintro rfl
      exact absurd h2 (by decide)
    have ih := digitsUnder_all_digits (c2 :: r) (by simp)
      (fun c hc => hd c (by simp [List.mem_cons] at hc ⊢; tauto))
    rw [digitsUnder.eq_def]
    split <;> simp_all

theorem dropWhile_head_false {p : Char → Bool} : ∀ (s : Str) (c : Char),
    (s.dropWhile p).head? = some c → p c = false := by
  intro s
  induction s with
  | nil => intro c hc; cases hc
  | cons x t ih =>
    intro c hc
    rw [List.dropWhile_cons] at hc
    by_cases hx : p x = true
    · rw [if_pos hx] at hc
      exact ih c hc
    · rw [if_neg hx] at hc
      injection hc with he
      subst he
      simpa using hx

theorem dropWhile_eq_self_of_head {p : Char → Bool} {s : Str}
    (h : ∀ c, s.head? = some c → p c = false) : s.dropWhile p = s := by
  cases s with
  | nil => rfl
  | cons x t =>
    rw [List.dropWhile_cons, if_neg]
    simp [h x rfl]

theorem dropWhile_dropWhile {p : Char → Bool} : ∀ s : Str,
    (s.dropWhile p).dropWhile p = s.dropWhile p := by
  intro s
  induction s with
  | nil => rfl
  | cons x t ih =>
    rw [List.dropWhile_cons]
    by_cases hx : p x = true
    · rw [if_pos hx]
      exact ih
    · rw [if_neg hx, List.dropWhile_cons, if_neg (by simp [hx])]

theorem pyStrip_dropWhile (s : Str) : (pyStrip s).dropWhile isPySpace = pyStrip s := by
  apply dropWhile_eq_self_of_head
  intro c hc
  rw [pyStrip, List.head?_reverse] at hc
  have hsuf : (s.dropWhile isPySpace).reverse.dropWhile isPySpace
      <:+ (s.dropWhile isPySpace).reverse := List.dropWhile_suffix isPySpace
  obtain ⟨pre, hpre⟩ := hsuf
  have hne : ((s.dropWhile isPySpace).reverse.dropWhile isPySpace) ≠ [] := by
    intro he
    rw [he] at hc
    cases hc
  have hlast : ((s.dropWhile isPySpace).reverse).getLast? = some c := by
    rw [← hpre]
    rw [List.getLast?_append_of_ne_nil pre hne]
    exact hc
  rw [List.getLast?_reverse] at hlast
  exact dropWhile_head_false _ c hlast

theorem pyStrip_idem (s : Str) : pyStrip (pyStrip s) = pyStrip s := by
  conv_lhs => rw [pyStrip]
  rw [pyStrip_dropWhile]
  rw [show pyStrip s = ((s.dropWhile isPySpace).reverse.dropWhile isPySpace).reverse from rfl]
  rw [List.reverse_reverse, dropWhile_dropWhile]

theorem strip_all_nonspace {s : Str} (h : ∀ c ∈ s, isPySpace c = false) :
    pyStrip s = s := by
  rw [pyStrip, dropWhile_all_false h, dropWhile_all_false (by simpa using h),
    List.reverse_reverse]

theorem decDigit_not_sign {c : Char} (h : isDecDigit c = true) :
    c ≠ '+' ∧ c ≠ '-' := by
  constructor <;> rintro rfl <;> exact absurd h (by decide)

theorem space_not_digit : ∀ c : Char, isPySpace c = true → isDecDigit c = false := by
  intro c hs
  rw [isPySpace] at hs
  simp only [Bool.or_eq_true, decide_eq_true_eq] at hs
  rcases hs with ((((hs | hs) | hs) | hs) | hs) | hs <;> subst hs <;> decide

theorem pyIntOfStr_digits {s : Str} (hne : s ≠ [])
    (h : ∀ c ∈ s, isDecDigit c = true) :
    pyIntOfStr s = some (decValue s) := by
  have hstrip : pyStrip s = s :=
    strip_all_nonspace (fun c hc => by
      by_cases hsp : isPySpace c = true
      · have hd := h c hc
        rw [space_not_digit c hsp] at hd
        simp at hd
      · simpa using hsp)
  match s, hne with
  | c :: t, _ =>
    have hc := h c (by simp)
    have hs := decDigit_not_sign hc
    rw [pyIntOfStr, hstrip]
    split
    · rename_i heq
      injection heq with e1 e2
      exact absurd e1 hs.1
    · rename_i heq
      injection heq with e1 e2
      exact absurd e1 hs.2
    · rw [if_pos (digitsUnder_all_digits (c :: t) (by simp) h)]
      rfl

theorem pyIntOfStr_natRepr (n : Nat) : pyIntOfStr (natRepr n) = some (n : Int) := by
  rw [pyIntOfStr_digits (natRepr_facts n).1 (fun c hc => ((natRepr_facts n).2 c hc).1),
    decValue_natRepr]
  rfl

theorem pyIntOfStr_intRepr {n : Int} (h : 0 ≤ n) : pyIntOfStr (intRepr n) = some n := by
  rw [intRepr, if_neg (by omega), pyIntOfStr_natRepr, Int.natAbs_of_nonneg h]

end TwoFas

namespace TwoFas

/- ### Fixed points of `_sanitize_string`, `_normalize_secret`, `str.upper` -/

theorem sanitize_no_colon (v : Str) : ':' ∉ sanitizeString v := by
  rw [sanitizeString]
  by_cases hv : v = []
  · rw [if_pos hv, hv]
    simp
  · rw [if_neg hv, replaceChar]
    intro hmem
    rw [List.mem_map] at hmem
    obtain ⟨c, _, hc⟩ := hmem
    by_cases hcc : c = ':'
    · rw [if_pos hcc] at hc
      cases hc
    · rw [if_neg hcc] at hc
      exact hcc hc

theorem dropWhile_map_comm (f : Char → Char) (p : Char → Bool)
    (h : ∀ c, p (f c) = p c) : ∀ s : Str,
    (s.map f).dropWhile p = (s.dropWhile p).map f := by
  intro s
  induction s with
  | nil => rfl
  | cons c t ih =>
    simp only [List.map_cons, List.dropWhile_cons, h c]
    by_cases hc : p c = true
    · rw [if_pos hc, if_pos hc, ih]
    · rw [if_neg hc, if_neg hc, List.map_cons]

theorem pyStrip_map_comm (f : Char → Char) (h : ∀ c, isPySpace (f c) = isPySpace c)
    (s : Str) : pyStrip (s.map f) = (pyStrip s).map f := by
  rw [pyStrip, pyStrip, dropWhile_map_comm f isPySpace h s]
  rw [show ((s.dropWhile isPySpace).map f).reverse = ((s.dropWhile isPySpace).reverse).map f
    from (List.map_reverse f _).symm]
  rw [dropWhile_map_comm f isPySpace h]
  rw [List.map_reverse]

theorem fColon_space (c : Char) :
    isPySpace (if c = ':' then '-' else c) = isPySpace c := by
  by_cases hc : c = ':'
  · rw [if_pos hc, hc]
    decide
  · rw [if_neg hc]

theorem replace_colon_twice (s : Str) :
    replaceChar ':' '-' (replaceChar ':' '-' s) = replaceChar ':' '-' s := by
  rw [replaceChar, replaceChar, List.map_map]
  apply List.map_congr_left
  intro c _
  by_cases hc : c = ':'
  · rw [hc]
    rfl
  · simp only [Function.comp_apply, if_neg hc, if_neg hc]

theorem sanitize_idem (v : Str) : sanitizeString (sanitizeString v) = sanitizeString v := by
  by_cases hv : v = []
  · rw [hv]
    rfl
  · rw [show sanitizeString v = replaceChar ':' '-' (pyStrip v) from by
      rw [sanitizeString, if_neg hv]]
    by_cases hw : replaceChar ':' '-' (pyStrip v) = []
    · rw [hw]
      rfl
    · rw [sanitizeString, if_neg hw]
      rw [show replaceChar ':' '-' (pyStrip v) = (pyStrip v).map (fun c => if c = ':' then '-' else c)
        from rfl]
      rw [pyStrip_map_comm _ fColon_space, pyStrip_idem]
      exact replace_colon_twice (pyStrip v)

theorem pyUpper_valid_alg {a : Str} (h : a ∈ OTPConfig.VALID_ALGORITHMS) :
    pyUpper a = a := by
  rw [OTPConfig.VALID_ALGORITHMS] at h
  simp only [List.mem_cons, List.not_mem_nil, or_false] at h
  rcases h with rfl | rfl | rfl <;> rfl

theorem drop_len_takeWhile (p : Char → Bool) : ∀ s : Str,
    s.drop (s.takeWhile p).length = s.dropWhile p := by
  intro s
  induction s with
  | nil => rfl
  | cons c t ih =>
    rw [List.takeWhile_cons, List.dropWhile_cons]
    by_cases hc : p c = true
    · rw [if_pos hc, if_pos hc, List.length_cons, List.drop_succ_cons, ih]
    · rw [if_neg hc, if_neg hc]
      rfl

theorem b32_regex_mem {s : Str} (h : b32RegexOk s = true) :
    ∀ c ∈ s, isB32Char c = true ∨ c = '=' := by
  rw [b32RegexOk, Bool.and_eq_true] at h
  intro c hc
  rw [drop_len_takeWhile] at h
  have hsplit : s.takeWhile isB32Char ++ s.dropWhile isB32Char = s :=
    List.takeWhile_append_dropWhile isB32Char s
  conv at hc => rw [← hsplit]
  rcases List.mem_append.mp hc with hm | hm
  · exact Or.inl (List.mem_takeWhile_imp hm)
  · right
    have := h.2
    rw [List.all_eq_true] at this
    simpa using this c hm

theorem char_le_toNat {a b : Char} (h : a ≤ b) : a.toNat ≤ b.toNat := h

theorem b32_char_upper_fix {c : Char} (h : isB32Char c = true ∨ c = '=') :
    c.toUpper = c := by
  have hn : ¬(c.toNat ≥ 97 ∧ c.toNat ≤ 122) := by
    rcases h with h | h
    · rw [isB32Char, Bool.or_eq_true] at h
      rcases h with h | h <;> rw [Bool.and_eq_true] at h <;>
        simp only [decide_eq_true_eq] at h
      · have h1 := char_le_toNat h.1
        have h2 := char_le_toNat h.2
        rw [show ('A' : Char).toNat = 65 from rfl] at h1
        rw [show ('Z' : Char).toNat = 90 from rfl] at h2
        omega
      · have h1 := char_le_toNat h.1
        have h2 := char_le_toNat h.2
        rw [show ('2' : Char).toNat = 50 from rfl] at h1
        rw [show ('7' : Char).toNat = 55 from rfl] at h2
        omega
    · subst h
      decide
  show (if c.toNat ≥ 97 ∧ c.toNat ≤ 122 then Char.ofNat (c.toNat - 32) else c) = c
  rw [if_neg hn]

theorem normalize_fix_of_regex {s : Str} (h : b32RegexOk s = true) :
    normalizeSecret s = s ∧ s ≠ [] := by
  have hmem := b32_regex_mem h
  have hne : s ≠ [] := by
    intro he
    subst he
    exact absurd h (by decide)
  refine ⟨?_, hne⟩
  rw [normalizeSecret, if_neg hne]
  have hupper : pyUpper s = s :=
    (List.map_congr_left (fun c hc => b32_char_upper_fix (hmem c hc))).trans (List.map_id s)
  rw [pyUpper] at hupper
  rw [show pyUpper s = s.map Char.toUpper from rfl, hupper, List.filter_eq_self.mpr]
  intro c hc
  simp only [Bool.not_eq_true', Bool.or_eq_false_iff, decide_eq_false_iff_not]
  rcases hmem c hc with hb | hb
  · constructor <;> rintro rfl <;> exact absurd hb (by decide)
  · subst hb
    decide

theorem isValidBase32_fix {s : Str} (h : isValidBase32 s = true) :
    normalizeSecret s = s ∧ s ≠ [] := by
  rw [isValidBase32, Bool.and_eq_true] at h
  exact normalize_fix_of_regex h.1

end TwoFas

namespace TwoFas

/- ### Decomposing the URL the serializer builds -/

theorem urlparseRest_built (T QL QS : Str)
    (hT : ∀ c ∈ T, notNetlocEnd c = true)
    (hQLf : '#' ∉ QL) (hQLq : '?' ∉ QL) (hQSf : '#' ∉ QS) :
    urlparseRest (T ++ '/' :: (QL ++ '?' :: QS))
      = { netloc := T, path := '/' :: QL, query := QS } := by
  obtain ⟨ht, hd⟩ := takeWhile_append_stop '/' (QL ++ '?' :: QS) hT (by decide)
  have hfrag : split1 '#' ('/' :: (QL ++ '?' :: QS)) = ('/' :: (QL ++ '?' :: QS), none) := by
    apply split1_not_mem
    intro hmem
    rcases List.mem_cons.mp hmem with hm | hm
    · cases hm
    · rcases List.mem_append.mp hm with hm | hm
      · exact hQLf hm
      · rcases List.mem_cons.mp hm with hm | hm
        · cases hm
        · exact hQSf hm
  have hq : split1 '?' ('/' :: (QL ++ '?' :: QS)) = ('/' :: QL, some QS) := by
    rw [show ('/' :: (QL ++ '?' :: QS) : Str) = ('/' :: QL) ++ '?' :: QS from by simp]
    apply split1_append
    intro hmem
    rcases List.mem_cons.mp hmem with hm | hm
    · cases hm
    · exact hQLq hm
  rw [urlparseRest]
  simp only [ht, hd, hfrag, hq]
  rfl

theorem joinSep_not_mem {c sep : Char} (hc : c ≠ sep) :
    ∀ ps : List Str, (∀ p ∈ ps, c ∉ p) → c ∉ joinSep sep ps
  | [], _ => by simp [joinSep]
  | [p], h => by simpa [joinSep] using h p (by simp)
  | p :: q :: r, h => by
    rw [show joinSep sep (p :: q :: r) = p ++ sep :: joinSep sep (q :: r) from rfl]
    intro hmem
    rcases List.mem_append.mp hmem with hm | hm
    · exact h p (by simp) hm
    · rcases List.mem_cons.mp hm with hm | hm
      · exact hc hm
      · exact joinSep_not_mem hc (q :: r)
          (fun x hx => h x (by simp only [List.mem_cons] at hx ⊢; tauto)) hm

theorem qslPiece_built {k v : Str} (hk : '=' ∉ k) (hkplus : pyUnquotePlus k = k)
    (hv : v ≠ []) :
    qslPiece (k ++ '=' :: pyQuote v) = some (k, v) := by
  rw [qslPiece, if_neg (by simp)]
  rw [split1_append _ hk]
  show (if pyQuote v = [] then none
        else some (pyUnquotePlus k, pyUnquotePlus (pyQuote v))) = some (k, v)
  rw [if_neg (quote_ne_nil hv)]
  rw [hkplus, pyUnquotePlus,
    replace_not_mem ' ' (quote_not_mem (by decide) (by decide) (by decide) v),
    pyUnquote_pyQuote]

theorem piece_amp_free {k v : Str} (hk : '&' ∉ k) : '&' ∉ k ++ '=' :: pyQuote v := by
  intro hmem
  rcases List.mem_append.mp hmem with hm | hm
  · exact hk hm
  · rcases List.mem_cons.mp hm with hm | hm
    · cases hm
    · exact quote_not_mem (by decide) (by decide) (by decide) v hm

theorem parseQs_built : ∀ ps : List (Str × Str),
    (∀ kv ∈ ps, ('&' ∉ kv.1 ∧ '=' ∉ kv.1 ∧ pyUnquotePlus kv.1 = kv.1) ∧ kv.2 ≠ []) →
    parseQs (joinSep '&' (ps.map fun kv => kv.1 ++ '=' :: pyQuote kv.2)) = ps
  | [], _ => rfl
  | [kv], h => by
    obtain ⟨⟨h1, h2, h3⟩, h4⟩ := h kv (by simp)
    simp only [List.map_cons, List.map_nil]
    rw [show joinSep '&' [kv.1 ++ '=' :: pyQuote kv.2] = kv.1 ++ '=' :: pyQuote kv.2
      from rfl]
    rw [parseQs, splitAll_single (piece_amp_free h1)]
    simp [qslPiece_built h2 h3 h4]
  | kv :: kv2 :: rest, h => by
    obtain ⟨⟨h1, h2, h3⟩, h4⟩ := h kv (by simp)
    simp only [List.map_cons]
    rw [show joinSep '&' ((kv.1 ++ '=' :: pyQuote kv.2)
          :: (kv2.1 ++ '=' :: pyQuote kv2.2) :: rest.map
            (fun kv => kv.1 ++ '=' :: pyQuote kv.2))
        = (kv.1 ++ '=' :: pyQuote kv.2) ++ '&' :: joinSep '&'
            ((kv2.1 ++ '=' :: pyQuote kv2.2) :: rest.map
              (fun kv => kv.1 ++ '=' :: pyQuote kv.2)) from rfl]
    rw [parseQs, splitAll_cons_sep _ (piece_amp_free h1)]
    rw [List.filterMap_cons]
    rw [qslPiece_built h2 h3 h4]
    have ih := parseQs_built (kv2 :: rest)
      (fun x hx => h x (by simp only [List.mem_cons] at hx ⊢; tauto))
    rw [parseQs] at ih
    simp only [List.map_cons] at ih
    rw [ih]

end TwoFas

namespace TwoFas

/- ### Invariants of constructed entries, and label/splitter helpers -/

theorem intRepr_ne_nil (n : Int) : intRepr n ≠ [] := by
  rw [intRepr]
  by_cases hn : n < 0
  · rw [if_pos hn]
    simp
  · rw [if_neg hn]
    exact (natRepr_facts n.natAbs).1

theorem valid_alg_ne_nil {a : Str} (h : a ∈ OTPConfig.VALID_ALGORITHMS) : a ≠ [] := by
  rw [OTPConfig.VALID_ALGORITHMS] at h
  simp only [List.mem_cons, List.not_mem_nil, or_false] at h
  rcases h with rfl | rfl | rfl <;> simp [str]

theorem strHas_iff (c : Char) (s : Str) : strHas c s = true ↔ c ∈ s := by
  rw [strHas]
  induction s with
  | nil => simp
  | cons x t ih =>
    rw [List.contains_cons]
    simp only [Bool.or_eq_true, beq_iff_eq, List.mem_cons]
    rw [ih]

theorem dropWhile_append_formula {p : Char → Bool} {y : Char} (xs ys : Str)
    (hy : p y = false) :
    (xs ++ y :: ys).dropWhile p = xs.dropWhile p ++ y :: ys := by
  induction xs with
  | nil => simp [List.dropWhile_cons, hy]
  | cons x t ih =>
    simp only [List.cons_append, List.dropWhile_cons]
    by_cases hx : p x = true
    · rw [if_pos hx, if_pos hx, ih]
    · rw [if_neg hx, if_neg hx, List.cons_append]

theorem lstripSlash_cons (s : Str) : lstripSlash ('/' :: s) = lstripSlash s := by
  simp [lstripSlash, List.dropWhile_cons]

theorem strStartsWith_append (p r : Str) : strStartsWith p (p ++ r) = true := by
  rw [strStartsWith]
  simp [List.take_left]

theorem mem_lstripSlash_subset {c : Char} {s : Str} (h : c ∉ s) : c ∉ lstripSlash s := by
  intro hm
  exact h ((List.dropWhile_suffix _).subset hm)

theorem mkTOTP_stored {i0 s0 : Str} {a0 : Option Str} {d p : Int} {alg0 : Str}
    {t : TOTPEntryM} (h : mkTOTP i0 s0 a0 d p alg0 = .ok t) :
    sanitizeString t.issuer = t.issuer ∧ t.issuer ≠ [] ∧ ':' ∉ t.issuer
    ∧ normalizeSecret t.secret = t.secret ∧ isValidBase32 t.secret = true ∧ t.secret ≠ []
    ∧ (∀ a, t.account = some a → sanitizeString a = a ∧ ':' ∉ a)
    ∧ t.digits ∈ OTPConfig.VALID_DIGITS
    ∧ t.algorithm ∈ OTPConfig.VALID_ALGORITHMS ∧ pyUpper t.algorithm = t.algorithm
    ∧ OTPConfig.MIN_PERIOD ≤ t.period ∧ t.period ≤ OTPConfig.MAX_PERIOD
    ∧ t.label = genLabel t.issuer t.account := by
  rw [mkTOTP_eq] at h
  split_ifs at h with h1 h2 h3 h4 h5 h6 h7
  injection h with he
  subst he
  simp only [Bool.not_eq_true'] at h2 h4 h5
  have hb32 : isValidBase32 (normalizeSecret s0) = true := by simpa using h2
  have hdig : OTPConfig.VALID_DIGITS.contains d = true := by simpa using h4
  have halg : OTPConfig.VALID_ALGORITHMS.contains (pyUpper alg0) = true := by simpa using h5
  have halgm : pyUpper alg0 ∈ OTPConfig.VALID_ALGORITHMS := by
    rw [OTPConfig.VALID_ALGORITHMS] at halg ⊢
    simpa using halg
  refine ⟨sanitize_idem i0, h3, sanitize_no_colon i0, (isValidBase32_fix hb32).1, hb32, h1,
    ?_, ?_, halgm, pyUpper_valid_alg halgm,
    show OTPConfig.MIN_PERIOD ≤ p by omega, show p ≤ OTPConfig.MAX_PERIOD by omega, rfl⟩
  · intro a ha
    have ha2 : storedAccount a0 = some a := ha
    cases a0 with
    | none => simp [storedAccount] at ha2
    | some a1 =>
      simp only [storedAccount] at ha2
      by_cases ha1 : a1 = []
      · rw [if_neg (by simp [ha1])] at ha2
        cases ha2
      · rw [if_pos ha1] at ha2
        injection ha2 with ha3
        subst ha3
        exact ⟨sanitize_idem a1, sanitize_no_colon a1⟩
  · show d ∈ OTPConfig.VALID_DIGITS
    rw [OTPConfig.VALID_DIGITS] at hdig ⊢
    simpa using hdig

theorem mkHOTP_stored {i0 s0 : Str} {a0 : Option Str} {d c : Int} {alg0 : Str}
    {t : HOTPEntryM} (h : mkHOTP i0 s0 a0 d c alg0 = .ok t) :
    sanitizeString t.issuer = t.issuer ∧ t.issuer ≠ [] ∧ ':' ∉ t.issuer
    ∧ normalizeSecret t.secret = t.secret ∧ isValidBase32 t.secret = true ∧ t.secret ≠ []
    ∧ (∀ a, t.account = some a → sanitizeString a = a ∧ ':' ∉ a)
    ∧ t.digits ∈ OTPConfig.VALID_DIGITS
    ∧ t.algorithm ∈ OTPConfig.VALID_ALGORITHMS ∧ pyUpper t.algorithm = t.algorithm
    ∧ 0 ≤ t.counter
    ∧ t.label = genLabel t.issuer t.account := by
  rw [mkHOTP_eq] at h
  split_ifs at h with h1 h2 h3 h4 h5 h6
  injection h with he
  subst he
  simp only [Bool.not_eq_true'] at h2 h4 h5
  have hb32 : isValidBase32 (normalizeSecret s0) = true := by simpa using h2
  have hdig : OTPConfig.VALID_DIGITS.contains d = true := by simpa using h4
  have halg : OTPConfig.VALID_ALGORITHMS.contains (pyUpper alg0) = true := by simpa using h5
  have halgm : pyUpper alg0 ∈ OTPConfig.VALID_ALGORITHMS := by
    rw [OTPConfig.VALID_ALGORITHMS] at halg ⊢
    simpa using halg
  refine ⟨sanitize_idem i0, h3, sanitize_no_colon i0, (isValidBase32_fix hb32).1, hb32, h1,
    ?_, ?_, halgm, pyUpper_valid_alg halgm, show (0 : Int) ≤ c by omega, rfl⟩
  · intro a ha
    have ha2 : storedAccount a0 = some a := ha
    cases a0 with
    | none => simp [storedAccount] at ha2
    | some a1 =>
      simp only [storedAccount] at ha2
      by_cases ha1 : a1 = []
      · rw [if_neg (by simp [ha1])] at ha2
        cases ha2
      · rw [if_pos ha1] at ha2
        injection ha2 with ha3
        subst ha3
        exact ⟨sanitize_idem a1, sanitize_no_colon a1⟩
  · show d ∈ OTPConfig.VALID_DIGITS
    rw [OTPConfig.VALID_DIGITS] at hdig ⊢
    simpa using hdig

end TwoFas

namespace TwoFas

theorem strHas_false {c : Char} {s : Str} (h : c ∉ s) : strHas c s = false := by
  cases hb : strHas c s
  · rfl
  · exact absurd ((strHas_iff c s).mp hb) h

theorem storedAccount_fix {a : Str} (h1 : sanitizeString a = a) (h2 : a ≠ []) :
    storedAccount (some a) = some a := by
  simp only [storedAccount]
  rw [if_pos h2, h1]

theorem c1_key_ok (k : Str)
    (h : k ∈ [str "secret", str "issuer", str "digits", str "algorithm",
               str "period", str "counter"]) :
    '&' ∉ k ∧ '=' ∉ k ∧ pyUnquotePlus k = k ∧ '#' ∉ k := by
  simp only [List.mem_cons, List.not_mem_nil, or_false] at h
  rcases h with rfl | rfl | rfl | rfl | rfl | rfl <;>
    exact ⟨by decide, by decide, by rfl, by decide⟩

set_option maxHeartbeats 2000000 in
theorem roundtrip_totp (t : TOTPEntryM)
    (hi1 : sanitizeString t.issuer = t.issuer) (hi2 : t.issuer ≠ []) (hi3 : ':' ∉ t.issuer)
    (hs1 : normalizeSecret t.secret = t.secret) (hs2 : isValidBase32 t.secret = true)
    (hs3 : t.secret ≠ [])
    (hacc : ∀ a, t.account = some a → sanitizeString a = a ∧ ':' ∉ a ∧ a ≠ [])
    (hdig : t.digits ∈ OTPConfig.VALID_DIGITS)
    (halg : t.algorithm ∈ OTPConfig.VALID_ALGORITHMS)
    (halg2 : pyUpper t.algorithm = t.algorithm)
    (hp1 : OTPConfig.MIN_PERIOD ≤ t.period) (hp2 : t.period ≤ OTPConfig.MAX_PERIOD)
    (hlab : t.label = genLabel t.issuer t.account)
    (hsl : t.account = none → lstripSlash t.issuer ≠ []) :
    parseOtpauthUrl (otpauth (.totp t)) = .ok (.totp t) := by
  obtain ⟨ti, ts, ta, td, tp, talg, tlab⟩ := t
  simp only at hi1 hi2 hi3 hs1 hs2 hs3 hacc hdig halg halg2 hp1 hp2 hlab hsl
  subst hlab
  rw [OTPConfig.MIN_PERIOD] at hp1
  rw [OTPConfig.MAX_PERIOD] at hp2
  have hd0 : (0 : Int) ≤ td := by
    rw [OTPConfig.VALID_DIGITS] at hdig
    simp only [List.mem_cons, List.not_mem_nil, or_false] at hdig
    rcases hdig with rfl | rfl | rfl <;> omega
  have hdc : OTPConfig.VALID_DIGITS.contains td = true := by
    rw [OTPConfig.VALID_DIGITS] at hdig ⊢
    simp only [List.mem_cons, List.not_mem_nil, or_false] at hdig
    rcases hdig with rfl | rfl | rfl <;> rfl
  have halgc : OTPConfig.VALID_ALGORITHMS.contains talg = true := by
    rw [OTPConfig.VALID_ALGORITHMS] at halg ⊢
    simp only [List.mem_cons, List.not_mem_nil, or_false] at halg
    rcases halg with rfl | rfl | rfl <;> rfl
  -- the parameter association list actually serialized
  set PS := otpauthParams (.totp ⟨ti, ts, ta, td, tp, talg, genLabel ti ta⟩) with hPS
  have hPSval : PS = [(str "secret", ts), (str "issuer", ti), (str "digits", intRepr td),
      (str "algorithm", talg)] ++ totpSpecificParams ⟨ti, ts, ta, td, tp, talg, genLabel ti ta⟩ := by
    rw [hPS, otpauthParams]
  have hmemkeys : ∀ kv ∈ PS, kv.1 ∈ [str "secret", str "issuer", str "digits",
      str "algorithm", str "period", str "counter"] ∧ kv.2 ≠ [] := by
    intro kv hkv
    rw [hPSval, totpSpecificParams] at hkv
    by_cases hper : tp ≠ OTPConfig.DEFAULT_PERIOD
    · rw [if_pos hper] at hkv
      simp only [List.mem_append, List.mem_cons, List.not_mem_nil, or_false] at hkv
      rcases hkv with ((rfl | rfl | rfl | rfl) | rfl) <;>
        exact ⟨by simp,
          by first | exact hs3 | exact hi2 | exact intRepr_ne_nil _ | exact valid_alg_ne_nil halg⟩
    · rw [if_neg hper] at hkv
      simp only [List.append_nil, List.mem_cons, List.not_mem_nil, or_false] at hkv
      rcases hkv with (rfl | rfl | rfl | rfl) <;>
        exact ⟨by simp,
          by first | exact hs3 | exact hi2 | exact intRepr_ne_nil _ | exact valid_alg_ne_nil halg⟩
  have hkeys : ∀ kv ∈ PS, ('&' ∉ kv.1 ∧ '=' ∉ kv.1 ∧ pyUnquotePlus kv.1 = kv.1) ∧ kv.2 ≠ [] := by
    intro kv hkv
    obtain ⟨hk, hv⟩ := hmemkeys kv hkv
    have hc := c1_key_ok kv.1 hk
    exact ⟨⟨hc.1, hc.2.1, hc.2.2.1⟩, hv⟩
  -- query-string round trip
  set QS := joinSep '&' (PS.map fun kv => kv.1 ++ '=' :: pyQuote kv.2) with hQS
  have hqs : parseQs QS = PS := parseQs_built PS hkeys
  -- qsGet on the parsed parameters
  have hg_secret : qsGet PS (str "secret") = some ts := by
    rw [hPSval, totpSpecificParams]
    by_cases hper : tp ≠ OTPConfig.DEFAULT_PERIOD
    · rw [if_pos hper]
      rfl
    · rw [if_neg hper]
      rfl
  have hg_issuer : qsGet PS (str "issuer") = some ti := by
    rw [hPSval, totpSpecificParams]
    by_cases hper : tp ≠ OTPConfig.DEFAULT_PERIOD
    · rw [if_pos hper]
      rfl
    · rw [if_neg hper]
      rfl
  have hg_digits : qsGet PS (str "digits") = some (intRepr td) := by
    rw [hPSval, totpSpecificParams]
    by_cases hper : tp ≠ OTPConfig.DEFAULT_PERIOD
    · rw [if_pos hper]
      rfl
    · rw [if_neg hper]
      rfl
  have hg_alg : qsGet PS (str "algorithm") = some talg := by
    rw [hPSval, totpSpecificParams]
    by_cases hper : tp ≠ OTPConfig.DEFAULT_PERIOD
    · rw [if_pos hper]
      rfl
    · rw [if_neg hper]
      rfl
  have hg_period : qsGet PS (str "period")
      = (if tp ≠ OTPConfig.DEFAULT_PERIOD then some (intRepr tp) else none) := by
    rw [hPSval, totpSpecificParams]
    by_cases hper : tp ≠ OTPConfig.DEFAULT_PERIOD
    · rw [if_pos hper, if_pos hper]
      rfl
    · rw [if_neg hper, if_neg hper]
      rfl
  -- the URL and its decomposition
  set QL := pyQuote (genLabel ti ta) with hQL
  have hurl : otpauth (.totp ⟨ti, ts, ta, td, tp, talg, genLabel ti ta⟩)
      = str "otpauth://" ++ (str "totp" ++ '/' :: (QL ++ '?' :: QS)) := by
    rw [otpauth]
    simp [tokenTypeStr, labelOf, List.append_assoc]
  have hQSsharp : '#' ∉ QS := by
    rw [hQS]
    apply joinSep_not_mem (by decide)
    intro piece hp
    rw [List.mem_map] at hp
    obtain ⟨kv, hkv, rfl⟩ := hp
    intro hmem
    rcases List.mem_append.mp hmem with hm | hm
    · exact (c1_key_ok kv.1 (hmemkeys kv hkv).1).2.2.2 hm
    · rcases List.mem_cons.mp hm with hm | hm
      · cases hm
      · exact quote_not_mem (by decide) (by decide) (by decide) _ hm
  have hparsed : urlparseRest (str "totp" ++ '/' :: (QL ++ '?' :: QS))
      = { netloc := str "totp", path := '/' :: QL, query := QS } :=
    urlparseRest_built _ _ _ (by decide)
      (quote_not_mem (by decide) (by decide) (by decide) _)
      (quote_not_mem (by decide) (by decide) (by decide) _) hQSsharp
  have hdrop : (str "otpauth://" ++ (str "totp" ++ '/' :: (QL ++ '?' :: QS))).drop
      (str "otpauth://").length = str "totp" ++ '/' :: (QL ++ '?' :: QS) :=
    List.drop_left _ _
  -- the label after unquoting
  have hlabel1 : pyUnquote (lstripSlash ('/' :: QL)) = lstripSlash (genLabel ti ta) := by
    rw [lstripSlash_cons, hQL]
    rw [show lstripSlash (pyQuote (genLabel ti ta))
        = (pyQuote (genLabel ti ta)).dropWhile (fun c => c = '/') from rfl]
    rw [quote_dropSlash, pyUnquote_pyQuote]
    rfl
  -- assemble
  have hth : ¬(str "totp" = str "hotp") := by decide
  have hopt : optTruthy (some ti) = true := by simp [optTruthy, hi2]
  have hint_d : pyIntOfStr (intRepr td) = some td := pyIntOfStr_intRepr hd0
  have hlow : pyLower (str "totp") = str "totp" := rfl
  rw [parseOtpauthUrl, hurl, strStartsWith_append]
  simp only [Bool.not_true, Bool.false_eq_true, if_false]
  rw [parseOtpauthBody, hdrop, hparsed]
  cases hta : ta with
  | some a =>
    obtain ⟨ha1, ha2, ha3⟩ := hacc a hta
    have hgl : genLabel ti (some a) = ti ++ ':' :: a := by
      rw [genLabel, if_pos ha3]
    have hsplitlab : lstripSlash (ti ++ ':' :: a) = lstripSlash ti ++ ':' :: a :=
      dropWhile_append_formula ti a (by decide)
    have hlabne : lstripSlash ti ++ ':' :: a ≠ [] := by simp
    have hhas : strHas ':' (lstripSlash ti ++ ':' :: a) = true := (strHas_iff _ _).mpr (by simp)
    have hsplit1 : split1 ':' (lstripSlash ti ++ ':' :: a) = (lstripSlash ti, some a) :=
      split1_append a (mem_lstripSlash_subset hi3)
    by_cases hper : tp ≠ OTPConfig.DEFAULT_PERIOD
    · have hpq : qsGet PS (str "period") = some (intRepr tp) := by
        rw [hg_period, if_pos hper]
      have hint_p : pyIntOfStr (intRepr tp) = some tp :=
        pyIntOfStr_intRepr (by rw [OTPConfig.DEFAULT_PERIOD] at hper; omega)
      have hmk : mkTOTP ti ts (some a) td tp talg
          = .ok ⟨ti, ts, some a, td, tp, talg, ti ++ ':' :: a⟩ := by
        rw [mkTOTP_eq, hs1, hi1, halg2]
        rw [if_neg hs3]
        rw [if_neg (show ¬((!isValidBase32 ts) = true) by rw [hs2]; decide)]
        rw [if_neg hi2]
        rw [if_neg (show ¬((!(OTPConfig.VALID_DIGITS.contains td)) = true)
          by rw [hdc]; decide)]
        rw [if_neg (show ¬((!(OTPConfig.VALID_ALGORITHMS.contains talg)) = true)
          by rw [halgc]; decide)]
        rw [if_neg (show ¬(tp < OTPConfig.MIN_PERIOD) by rw [OTPConfig.MIN_PERIOD]; omega)]
        rw [if_neg (show ¬(tp > OTPConfig.MAX_PERIOD) by rw [OTPConfig.MAX_PERIOD]; omega)]
        rw [storedAccount_fix ha1 ha3, hgl]
      simp [hta, hlow, hth, halg2, hlabel1, hgl, hsplitlab, hlabne, hqs, hg_secret, hs3, hg_issuer,
        hhas, hsplit1, hopt, hg_digits, hint_d, hg_alg, hpq, hint_p, hmk]
    · have hpq : qsGet PS (str "period") = none := by
        rw [hg_period, if_neg hper]
      have htp : OTPConfig.DEFAULT_PERIOD = tp := by
        rw [OTPConfig.DEFAULT_PERIOD] at hper ⊢
        omega
      have hmk : mkTOTP ti ts (some a) td tp talg
          = .ok ⟨ti, ts, some a, td, tp, talg, ti ++ ':' :: a⟩ := by
        rw [mkTOTP_eq, hs1, hi1, halg2]
        rw [if_neg hs3]
        rw [if_neg (show ¬((!isValidBase32 ts) = true) by rw [hs2]; decide)]
        rw [if_neg hi2]
        rw [if_neg (show ¬((!(OTPConfig.VALID_DIGITS.contains td)) = true)
          by rw [hdc]; decide)]
        rw [if_neg (show ¬((!(OTPConfig.VALID_ALGORITHMS.contains talg)) = true)
          by rw [halgc]; decide)]
        rw [if_neg (show ¬(tp < OTPConfig.MIN_PERIOD) by rw [OTPConfig.MIN_PERIOD]; omega)]
        rw [if_neg (show ¬(tp > OTPConfig.MAX_PERIOD) by rw [OTPConfig.MAX_PERIOD]; omega)]
        rw [storedAccount_fix ha1 ha3, hgl]
      simp [hta, hlow, hth, halg2, hlabel1, hgl, hsplitlab, hlabne, hqs, hg_secret, hs3, hg_issuer,
        hhas, hsplit1, hopt, hg_digits, hint_d, hg_alg, hpq, htp, hmk]
  | none =>
    have hgl : genLabel ti none = ti := rfl
    have hlabne : lstripSlash ti ≠ [] := hsl hta
    have hnohas : strHas ':' (lstripSlash ti) = false := strHas_false (mem_lstripSlash_subset hi3)
    by_cases hper : tp ≠ OTPConfig.DEFAULT_PERIOD
    · have hpq : qsGet PS (str "period") = some (intRepr tp) := by
        rw [hg_period, if_pos hper]
      have hint_p : pyIntOfStr (intRepr tp) = some tp :=
        pyIntOfStr_intRepr (by rw [OTPConfig.DEFAULT_PERIOD] at hper; omega)
      have hmk : mkTOTP ti ts none td tp talg
          = .ok ⟨ti, ts, none, td, tp, talg, ti⟩ := by
        rw [mkTOTP_eq, hs1, hi1, halg2]
        rw [if_neg hs3]
        rw [if_neg (show ¬((!isValidBase32 ts) = true) by rw [hs2]; decide)]
        rw [if_neg hi2]
        rw [if_neg (show ¬((!(OTPConfig.VALID_DIGITS.contains td)) = true)
          by rw [hdc]; decide)]
        rw [if_neg (show ¬((!(OTPConfig.VALID_ALGORITHMS.contains talg)) = true)
          by rw [halgc]; decide)]
        rw [if_neg (show ¬(tp < OTPConfig.MIN_PERIOD) by rw [OTPConfig.MIN_PERIOD]; omega)]
        rw [if_neg (show ¬(tp > OTPConfig.MAX_PERIOD) by rw [OTPConfig.MAX_PERIOD]; omega)]
        rfl
      simp [hta, hlow, hth, halg2, hlabel1, hgl, hlabne, hqs, hg_secret, hs3, hg_issuer,
        hnohas, hopt, hg_digits, hint_d, hg_alg, hpq, hint_p, hmk]
    · have hpq : qsGet PS (str "period") = none := by
        rw [hg_period, if_neg hper]
      have htp : OTPConfig.DEFAULT_PERIOD = tp := by
        rw [OTPConfig.DEFAULT_PERIOD] at hper ⊢
        omega
      have hmk : mkTOTP ti ts none td tp talg
          = .ok ⟨ti, ts, none, td, tp, talg, ti⟩ := by
        rw [mkTOTP_eq, hs1, hi1, halg2]
        rw [if_neg hs3]
        rw [if_neg (show ¬((!isValidBase32 ts) = true) by rw [hs2]; decide)]
        rw [if_neg hi2]
        rw [if_neg (show ¬((!(OTPConfig.VALID_DIGITS.contains td)) = true)
          by rw [hdc]; decide)]
        rw [if_neg (show ¬((!(OTPConfig.VALID_ALGORITHMS.contains talg)) = true)
          by rw [halgc]; decide)]
        rw [if_neg (show ¬(tp < OTPConfig.MIN_PERIOD) by rw [OTPConfig.MIN_PERIOD]; omega)]
        rw [if_neg (show ¬(tp > OTPConfig.MAX_PERIOD) by rw [OTPConfig.MAX_PERIOD]; omega)]
        rfl
      simp [hta, hlow, hth, halg2, hlabel1, hgl, hlabne, hqs, hg_secret, hs3, hg_issuer,
        hnohas, hopt, hg_digits, hint_d, hg_alg, hpq, htp, hmk]

end TwoFas

namespace TwoFas

set_option maxHeartbeats 2000000 in
theorem roundtrip_hotp (t : HOTPEntryM)
    (hi1 : sanitizeString t.issuer = t.issuer) (hi2 : t.issuer ≠ []) (hi3 : ':' ∉ t.issuer)
    (hs1 : normalizeSecret t.secret = t.secret) (hs2 : isValidBase32 t.secret = true)
    (hs3 : t.secret ≠ [])
    (hacc : ∀ a, t.account = some a → sanitizeString a = a ∧ ':' ∉ a ∧ a ≠ [])
    (hdig : t.digits ∈ OTPConfig.VALID_DIGITS)
    (halg : t.algorithm ∈ OTPConfig.VALID_ALGORITHMS)
    (halg2 : pyUpper t.algorithm = t.algorithm)
    (hc0 : 0 ≤ t.counter)
    (hlab : t.label = genLabel t.issuer t.account)
    (hsl : t.account = none → lstripSlash t.issuer ≠ []) :
    parseOtpauthUrl (otpauth (.hotp t)) = .ok (.hotp t) := by
  obtain ⟨ti, ts, ta, td, tc, talg, tlab⟩ := t
  simp only at hi1 hi2 hi3 hs1 hs2 hs3 hacc hdig halg halg2 hc0 hlab hsl
  subst hlab
  have hd0 : (0 : Int) ≤ td := by
    rw [OTPConfig.VALID_DIGITS] at hdig
    simp only [List.mem_cons, List.not_mem_nil, or_false] at hdig
    rcases hdig with rfl | rfl | rfl <;> omega
  have hdc : OTPConfig.VALID_DIGITS.contains td = true := by
    rw [OTPConfig.VALID_DIGITS] at hdig ⊢
    simp only [List.mem_cons, List.not_mem_nil, or_false] at hdig
    rcases hdig with rfl | rfl | rfl <;> rfl
  have halgc : OTPConfig.VALID_ALGORITHMS.contains talg = true := by
    rw [OTPConfig.VALID_ALGORITHMS] at halg ⊢
    simp only [List.mem_cons, List.not_mem_nil, or_false] at halg
    rcases halg with rfl | rfl | rfl <;> rfl
  set PS := otpauthParams (.hotp ⟨ti, ts, ta, td, tc, talg, genLabel ti ta⟩) with hPS
  have hPSval : PS = [(str "secret", ts), (str "issuer", ti), (str "digits", intRepr td),
      (str "algorithm", talg), (str "counter", intRepr tc)] := by
    rw [hPS, otpauthParams, hotpSpecificParams]
    rfl
  have hmemkeys : ∀ kv ∈ PS, kv.1 ∈ [str "secret", str "issuer", str "digits",
      str "algorithm", str "period", str "counter"] ∧ kv.2 ≠ [] := by
    intro kv hkv
    rw [hPSval] at hkv
    simp only [List.mem_cons, List.not_mem_nil, or_false] at hkv
    rcases hkv with rfl | rfl | rfl | rfl | rfl <;>
      exact ⟨by simp,
        by first | exact hs3 | exact hi2 | exact intRepr_ne_nil _ | exact valid_alg_ne_nil halg⟩
  have hkeys : ∀ kv ∈ PS, ('&' ∉ kv.1 ∧ '=' ∉ kv.1 ∧ pyUnquotePlus kv.1 = kv.1) ∧ kv.2 ≠ [] := by
    intro kv hkv
    obtain ⟨hk, hv⟩ := hmemkeys kv hkv
    have hck := c1_key_ok kv.1 hk
    exact ⟨⟨hck.1, hck.2.1, hck.2.2.1⟩, hv⟩
  set QS := joinSep '&' (PS.map fun kv => kv.1 ++ '=' :: pyQuote kv.2) with hQS
  have hqs : parseQs QS = PS := parseQs_built PS hkeys
  have hg_secret : qsGet PS (str "secret") = some ts := by rw [hPSval]; rfl
  have hg_issuer : qsGet PS (str "issuer") = some ti := by rw [hPSval]; rfl
  have hg_digits : qsGet PS (str "digits") = some (intRepr td) := by rw [hPSval]; rfl
  have hg_alg : qsGet PS (str "algorithm") = some talg := by rw [hPSval]; rfl
  have hg_counter : qsGet PS (str "counter") = some (intRepr tc) := by rw [hPSval]; rfl
  set QL := pyQuote (genLabel ti ta) with hQL
  have hurl : otpauth (.hotp ⟨ti, ts, ta, td, tc, talg, genLabel ti ta⟩)
      = str "otpauth://" ++ (str "hotp" ++ '/' :: (QL ++ '?' :: QS)) := by
    rw [otpauth]
    simp [tokenTypeStr, labelOf, List.append_assoc]
  have hQSsharp : '#' ∉ QS := by
    rw [hQS]
    apply joinSep_not_mem (by decide)
    intro piece hp
    rw [List.mem_map] at hp
    obtain ⟨kv, hkv, rfl⟩ := hp
    intro hmem
    rcases List.mem_append.mp hmem with hm | hm
    · exact (c1_key_ok kv.1 (hmemkeys kv hkv).1).2.2.2 hm
    · rcases List.mem_cons.mp hm with hm | hm
      · cases hm
      · exact quote_not_mem (by decide) (by decide) (by decide) _ hm
  have hparsed : urlparseRest (str "hotp" ++ '/' :: (QL ++ '?' :: QS))
      = { netloc := str "hotp", path := '/' :: QL, query := QS } :=
    urlparseRest_built _ _ _ (by decide)
      (quote_not_mem (by decide) (by decide) (by decide) _)
      (quote_not_mem (by decide) (by decide) (by decide) _) hQSsharp
  have hdrop : (str "otpauth://" ++ (str "hotp" ++ '/' :: (QL ++ '?' :: QS))).drop
      (str "otpauth://").length = str "hotp" ++ '/' :: (QL ++ '?' :: QS) :=
    List.drop_left _ _
  have hlabel1 : pyUnquote (lstripSlash ('/' :: QL)) = lstripSlash (genLabel ti ta) := by
    rw [lstripSlash_cons, hQL]
    rw [show lstripSlash (pyQuote (genLabel ti ta))
        = (pyQuote (genLabel ti ta)).dropWhile (fun c => c = '/') from rfl]
    rw [quote_dropSlash, pyUnquote_pyQuote]
    rfl
  have hth : ¬(str "hotp" = str "hotp") → False := fun h => h rfl
  have hopt : optTruthy (some ti) = true := by simp [optTruthy, hi2]
  have hint_d : pyIntOfStr (intRepr td) = some td := pyIntOfStr_intRepr hd0
  have hint_c : pyIntOfStr (intRepr tc) = some tc := pyIntOfStr_intRepr hc0
  have hlow : pyLower (str "hotp") = str "hotp" := rfl
  rw [parseOtpauthUrl, hurl, strStartsWith_append]
  simp only [Bool.not_true, Bool.false_eq_true, if_false]
  rw [parseOtpauthBody, hdrop, hparsed]
  cases hta : ta with
  | some a =>
    obtain ⟨ha1, ha2, ha3⟩ := hacc a hta
    have hgl : genLabel ti (some a) = ti ++ ':' :: a := by
      rw [genLabel, if_pos ha3]
    have hsplitlab : lstripSlash (ti ++ ':' :: a) = lstripSlash ti ++ ':' :: a :=
      dropWhile_append_formula ti a (by decide)
    have hlabne : lstripSlash ti ++ ':' :: a ≠ [] := by simp
    have hhas : strHas ':' (lstripSlash ti ++ ':' :: a) = true := (strHas_iff _ _).mpr (by simp)
    have hsplit1 : split1 ':' (lstripSlash ti ++ ':' :: a) = (lstripSlash ti, some a) :=
      split1_append a (mem_lstripSlash_subset hi3)
    have hmk : mkHOTP ti ts (some a) td tc talg
        = .ok ⟨ti, ts, some a, td, tc, talg, ti ++ ':' :: a⟩ := by
      rw [mkHOTP_eq, hs1, hi1, halg2]
      rw [if_neg hs3]
      rw [if_neg (show ¬((!isValidBase32 ts) = true) by rw [hs2]; decide)]
      rw [if_neg hi2]
      rw [if_neg (show ¬((!(OTPConfig.VALID_DIGITS.contains td)) = true)
        by rw [hdc]; decide)]
      rw [if_neg (show ¬((!(OTPConfig.VALID_ALGORITHMS.contains talg)) = true)
        by rw [halgc]; decide)]
      rw [if_neg (show ¬(tc < 0) by omega)]
      rw [storedAccount_fix ha1 ha3, hgl]
    simp [hta, hlow, halg2, hlabel1, hgl, hsplitlab, hlabne, hqs, hg_secret, hs3, hg_issuer,
      hhas, hsplit1, hopt, hg_digits, hint_d, hg_alg, hg_counter, hint_c, hmk]
  | none =>
    have hgl : genLabel ti none = ti := rfl
    have hlabne : lstripSlash ti ≠ [] := hsl hta
    have hnohas : strHas ':' (lstripSlash ti) = false := strHas_false (mem_lstripSlash_subset hi3)
    have hmk : mkHOTP ti ts none td tc talg
        = .ok ⟨ti, ts, none, td, tc, talg, ti⟩ := by
      rw [mkHOTP_eq, hs1, hi1, halg2]
      rw [if_neg hs3]
      rw [if_neg (show ¬((!isValidBase32 ts) = true) by rw [hs2]; decide)]
      rw [if_neg hi2]
      rw [if_neg (show ¬((!(OTPConfig.VALID_DIGITS.contains td)) = true)
        by rw [hdc]; decide)]
      rw [if_neg (show ¬((!(OTPConfig.VALID_ALGORITHMS.contains talg)) = true)
        by rw [halgc]; decide)]
      rw [if_neg (show ¬(tc < 0) by omega)]
      rfl
    simp [hta, hlow, halg2, hlabel1, hgl, hlabne, hqs, hg_secret, hs3, hg_issuer,
      hnohas, hopt, hg_digits, hint_d, hg_alg, hg_counter, hint_c, hmk]

end TwoFas

namespace TwoFas

theorem entryEq_refl (e : OTPEntryM) : entryEq e e = true := by
  cases e <;> simp [entryEq]

/-- C1 (corrected): round trip of serialization and parsing.  For every
entry accepted by a constructor, parsing the serialized URI yields an
entry that `__eq__`-equals the original — provided the stored account is
not the empty string (a whitespace-only account sanitizes to `""`, is
dropped from the label, and parses back as `None`), and, when there is no
account, the issuer does not consist solely of `/` characters (the
parser's `lstrip('/')` would empty the label and parsing fails). -/
theorem C1_round_trip (issuer secret : Str) (account : Option Str)
    (digits pc : Int) (algorithm : Str) :
    (∀ t : TOTPEntryM, mkTOTP issuer secret account digits pc algorithm = .ok t →
      t.account ≠ some [] →
      (t.account = none → lstripSlash t.issuer ≠ []) →
      ∃ e, parseOtpauthUrl (otpauth (.totp t)) = .ok e ∧ entryEq e (.totp t) = true)
    ∧ (∀ h : HOTPEntryM, mkHOTP issuer secret account digits pc algorithm = .ok h →
      h.account ≠ some [] →
      (h.account = none → lstripSlash h.issuer ≠ []) →
      ∃ e, parseOtpauthUrl (otpauth (.hotp h)) = .ok e ∧ entryEq e (.hotp h) = true) := by
  constructor
  · intro t hmk hne hslash
    obtain ⟨hi1, hi2, hi3, hs1, hs2, hs3, hacc, hdig, halg, halg2, hp1, hp2, hlab⟩ :=
      mkTOTP_stored hmk
    refine ⟨.totp t, roundtrip_totp t hi1 hi2 hi3 hs1 hs2 hs3 ?_ hdig halg halg2 hp1 hp2
      hlab hslash, entryEq_refl _⟩
    intro a ha
    obtain ⟨h1, h2⟩ := hacc a ha
    refine ⟨h1, h2, ?_⟩
    intro he
    subst he
    exact hne ha
  · intro h hmk hne hslash
    obtain ⟨hi1, hi2, hi3, hs1, hs2, hs3, hacc, hdig, halg, halg2, hc0, hlab⟩ :=
      mkHOTP_stored hmk
    refine ⟨.hotp h, roundtrip_hotp h hi1 hi2 hi3 hs1 hs2 hs3 ?_ hdig halg halg2 hc0
      hlab hslash, entryEq_refl _⟩
    intro a ha
    obtain ⟨h1, h2⟩ := hacc a ha
    refine ⟨h1, h2, ?_⟩
    intro he
    subst he
    exact hne ha

def c1SlashT : TOTPEntryM :=
  { issuer := str "/", secret := str "JBSWY3DPEHPK3PXP", account := none,
    digits := 6, period := 30, algorithm := str "SHA1", label := str "/" }

def c1BlankT : TOTPEntryM :=
  { issuer := str "GitHub", secret := str "JBSWY3DPEHPK3PXP", account := some [],
    digits := 6, period := 30, algorithm := str "SHA1", label := str "GitHub" }

def c1BlankParsed : TOTPEntryM :=
  { issuer := str "GitHub", secret := str "JBSWY3DPEHPK3PXP", account := none,
    digits := 6, period := 30, algorithm := str "SHA1", label := str "GitHub" }

/-- C1 counterexample: two constructor-accepted entries break the
round-trip law.  An entry with issuer `"/"` and no account serializes to a
URI whose label is all slashes; the parser strips them, finds an empty
label and raises (re-raised as a plain OTPError).  An entry built with the
whitespace account `"  "` stores account `""`; its URI omits the account,
so parsing returns an entry with account `None`, and `__eq__` (compared
via `to_dict`) is False. -/
theorem C1_counterexample :
    mkTOTP (str "/") (str "JBSWY3DPEHPK3PXP") none 6 30 (str "SHA1") = .ok c1SlashT
    ∧ parseOtpauthUrl (otpauth (.totp c1SlashT)) = .error .otpError
    ∧ mkTOTP (str "GitHub") (str "JBSWY3DPEHPK3PXP") (some (str "  ")) 6 30 (str "SHA1")
        = .ok c1BlankT
    ∧ parseOtpauthUrl (otpauth (.totp c1BlankT)) = .ok (.totp c1BlankParsed)
    ∧ entryEq (.totp c1BlankParsed) (.totp c1BlankT) = false :=
  ⟨rfl, rfl, rfl, rfl, rfl⟩

def c1WitT : TOTPEntryM :=
  { issuer := str "GitHub", secret := str "JBSWY3DPEHPK3PXP",
    account := some (str "user@example.com"), digits := 6, period := 45,
    algorithm := str "SHA256", label := str "GitHub:user@example.com" }

def c1WitH : HOTPEntryM :=
  { issuer := str "Example", secret := str "JBSWY3DPEHPK3PXP", account := none,
    digits := 8, counter := 7, algorithm := str "SHA1", label := str "Example" }

/-- Witness for C1: a TOTP entry with account and non-default period, and
an HOTP entry without account, both survive the round trip. -/
theorem C1_round_trip_witness :
    (∃ e, parseOtpauthUrl (otpauth (.totp c1WitT)) = .ok e
      ∧ entryEq e (.totp c1WitT) = true)
    ∧ (∃ e, parseOtpauthUrl (otpauth (.hotp c1WitH)) = .ok e
      ∧ entryEq e (.hotp c1WitH) = true) := by
  constructor
  · exact (C1_round_trip (str "GitHub") (str "JBSWY3DPEHPK3PXP")
      (some (str "user@example.com")) 6 45 (str "SHA256")).1 c1WitT (by rfl)
      (by decide) (by decide)
  · exact (C1_round_trip (str "Example") (str "JBSWY3DPEHPK3PXP") none 8 7
      (str "SHA1")).2 c1WitH (by rfl) (by decide) (by decide)

end TwoFas
